import Mathlib

/-!
Verification of the distributed cluster lifecycle engine of the sealer
repository.  Go code is shallowly embedded: strings are Lean `String`s
(`List Char` underneath, the inputs of interest are ASCII so Go's byte
indexing and Lean's character indexing agree), remote effects are driven
by explicit outcome oracles, and a Go panic (index out of range, explicit
`panic`) is modelled as `Option.none` or a dedicated constructor.
-/

namespace Sealer

/-! ### Go string primitives (strings package), over `List Char` -/

/-- `isPrefixList p s` is true when `p` is a prefix of `s`. -/
def isPrefixList : List Char → List Char → Bool
  | [], _ => true
  | _ :: _, [] => false
  | a :: as, b :: bs => a == b && isPrefixList as bs

/-- Go `strings.Contains(s, sub)` as `containsGoL sub s`: `sub` occurs as a
substring of `s` (the empty pattern occurs in every string). -/
def containsGoL (sub : List Char) : List Char → Bool
  | [] => sub.isEmpty
  | c :: cs => isPrefixList sub (c :: cs) || containsGoL sub cs

/-- Fuel-driven core of Go `strings.Split` for a non-empty separator: scan
left to right, cut at each non-overlapping occurrence of `sep`.  The fuel
only serves structural recursion; `goSplitL` supplies `s.length`, which is
always sufficient. -/
def splitFuel (sep : List Char) : Nat → List Char → List (List Char)
  | _, [] => [[]]
  | 0, s => [s]
  | Nat.succ n, c :: cs =>
    if isPrefixList sep (c :: cs) && !sep.isEmpty then
      [] :: splitFuel sep n (List.drop (sep.length - 1) cs)
    else
      match splitFuel sep n cs with
      | [] => [[c]]
      | t :: ts => (c :: t) :: ts

def goSplitL (sep s : List Char) : List (List Char) :=
  splitFuel sep s.length s

/-- Go `strings.Split(s, sep)` (used in the source only with non-empty
separators). -/
def goSplit (s sep : String) : List String :=
  (goSplitL sep.data s.data).map (fun l => String.mk l)

/-- Go `strings.Contains(s, sub)`. -/
def goContains (s sub : String) : Bool :=
  containsGoL sub.data s.data

/-- Fuel-driven core of Go `strings.ReplaceAll` (non-empty pattern):
replace every non-overlapping occurrence of `pat` by `rep`. -/
def replaceFuel (pat rep : List Char) : Nat → List Char → List Char
  | _, [] => []
  | 0, s => s
  | Nat.succ n, c :: cs =>
    if isPrefixList pat (c :: cs) && !pat.isEmpty then
      rep ++ replaceFuel pat rep n (List.drop (pat.length - 1) cs)
    else
      c :: replaceFuel pat rep n cs

/-- Go `strings.ReplaceAll(s, old, new)`. -/
def goReplaceAll (s old new : String) : String :=
  String.mk (replaceFuel old.data new.data s.data.length s.data)

/-- Go `unicode.IsSpace` restricted to the Latin-1 space characters it
recognises. -/
def isSpaceGo (c : Char) : Bool :=
  c == ' ' || c == '\t' || c == '\n' || c == '\x0b' || c == '\x0c' ||
    c == '\x0d' || c == '\u0085' || c == ' '

/-- Go `strings.TrimSpace`. -/
def goTrimSpace (s : String) : String :=
  String.mk (((s.data.dropWhile isSpaceGo).reverse.dropWhile isSpaceGo).reverse)

/-! ### Bootstrap Token Protocol
(`Runtime.decodeMaster0Output` / `Runtime.decodeJoinCmd`) -/

/-- The part of `v1beta2.BootstrapTokenDiscovery` written by the decoder. -/
structure BootstrapTokenDiscovery where
  Token : String
  CACertHashes : List String
deriving DecidableEq, Repr

/-- The per-token cleanup of `decodeJoinCmd`: delete `\t`, `\n`, `\\`
(in that order, as the Go source does), then trim surrounding space. -/
def cleanJoinToken (r : String) : String :=
  goTrimSpace (goReplaceAll (goReplaceAll (goReplaceAll r "\t" "") "\n" "") "\x5c" "")

/-- The `if strings.Contains(r, "--token")` branch of the loop body:
`token.Token = stringSlice[i+1]`, where reading past the end of the
slice is a Go panic, modelled as `none`. -/
def applyTokenFlag (r2 : String) (rest : List String)
    (st : BootstrapTokenDiscovery × String) :
    Option (BootstrapTokenDiscovery × String) :=
  if goContains r2 "--token" then
    match rest with
    | [] => none
    | next :: _ => some ({ st.1 with Token := next }, st.2)
  else some st

/-- The `if strings.Contains(r, "--discovery-token-ca-cert-hash")`
branch: `token.CACertHashes = []string{stringSlice[i+1]}`. -/
def applyCAHashFlag (r2 : String) (rest : List String)
    (st : BootstrapTokenDiscovery × String) :
    Option (BootstrapTokenDiscovery × String) :=
  if goContains r2 "--discovery-token-ca-cert-hash" then
    match rest with
    | [] => none
    | next :: _ => some ({ st.1 with CACertHashes := [next] }, st.2)
  else some st

/-- The `if strings.Contains(r, "--certificate-key")` branch:
`certKey = stringSlice[i+1][:64]`, where slicing a value shorter than
64 bytes is also a Go panic. -/
def applyCertKeyFlag (r2 : String) (rest : List String)
    (st : BootstrapTokenDiscovery × String) :
    Option (BootstrapTokenDiscovery × String) :=
  if goContains r2 "--certificate-key" then
    match rest with
    | [] => none
    | next :: _ =>
      if next.data.length < 64 then none
      else some (st.1, String.mk (next.data.take 64))
  else some st

/-- One iteration of the `for i, r := range stringSlice` loop of
`decodeJoinCmd`: the three independent `if strings.Contains` branches in
source order, each reading `stringSlice[i+1]` (here the head of `rest`). -/
def decodeJoinStep (r2 : String) (rest : List String)
    (st : BootstrapTokenDiscovery × String) :
    Option (BootstrapTokenDiscovery × String) :=
  (applyTokenFlag r2 rest st).bind (fun st1 =>
    (applyCAHashFlag r2 rest st1).bind (fun st2 =>
      applyCertKeyFlag r2 rest st2))

def decodeJoinLoop : List String → (BootstrapTokenDiscovery × String) →
    Option (BootstrapTokenDiscovery × String)
  | [], st => some st
  | r :: rest, st =>
    match decodeJoinStep (cleanJoinToken r) rest st with
    | none => none
    | some st2 => decodeJoinLoop rest st2

/-- `Runtime.decodeJoinCmd`: split the join command line on single spaces
and fold the flag-extraction loop over it, starting from the zero values. -/
def decodeJoinCmd (cmd : String) : Option (BootstrapTokenDiscovery × String) :=
  decodeJoinLoop (goSplit cmd " ") ({ Token := "", CACertHashes := [] }, "")

/-- `Runtime.decodeMaster0Output`: `slice := strings.Split(s0, "kubeadm join")`
then `slice1 := strings.Split(slice[1], "Please note")` and decode
`slice1[0]`.  `slice[1]` is a Go panic (index out of range) when the
bootstrap output does not contain `kubeadm join`; modelled as `none`. -/
def decodeMaster0Output (output : String) : Option (BootstrapTokenDiscovery × String) :=
  match goSplit output "kubeadm join" with
  | _ :: s1 :: _ =>
    match goSplit s1 "Please note" with
    | first :: _ => decodeJoinCmd first
    | [] => none
  | _ => none

/-- The three flag markers scanned for by `decodeJoinCmd`. -/
inductive JoinMarker
  | tokenM
  | caHashM
  | certKeyM
deriving DecidableEq, Repr

def markerText : JoinMarker → String
  | .tokenM => "--token"
  | .caHashM => "--discovery-token-ca-cert-hash"
  | .certKeyM => "--certificate-key"

/-- The decoder output field that belongs to a marker is the same in `st2`
as in `st`. -/
def markerUnchanged : JoinMarker → (BootstrapTokenDiscovery × String) →
    (BootstrapTokenDiscovery × String) → Prop
  | .tokenM, st2, st => st2.1.Token = st.1.Token
  | .caHashM, st2, st => st2.1.CACertHashes = st.1.CACertHashes
  | .certKeyM, st2, st => st2.2 = st.2

/-! ### Host Execution Driver batches
(`registry.concurrencyExecute`, `filesystem.mountRootfs`) -/

/-- The per-host failures of a batch: each host of `ips` whose task
outcome `f` is an error, paired with its underlying cause, in launch
order. -/
def hostErrors (f : String → Option String) (ips : List String) :
    List (String × String) :=
  ips.filterMap (fun h => (f h).map (fun e => (h, e)))

/-- The error string `concurrencyExecute` wraps a per-host failure in:
`fmt.Errorf("on host [%s]: %v", ip.String(), err)` — note the host slot
is filled from the shared loop variable `ip`, not the per-iteration
copy `host` the task ran against. -/
def goErrorString (p : String × String) : String :=
  "on host [" ++ p.1 ++ "]: " ++ p.2

/-- The per-host failures of a batch together with the index of the
launching iteration: each host of `ips` whose task outcome `f` is an
error, as `(index, host, cause)`, in launch order. -/
def hostErrorsIdxFrom (f : String → Option String) :
    Nat → List String → List (Nat × String × String)
  | _, [] => []
  | i, ip :: rest =>
    match f ip with
    | some e => (i, ip, e) :: hostErrorsIdxFrom f (i + 1) rest
    | none => hostErrorsIdxFrom f (i + 1) rest

def hostErrorsIdx (f : String → Option String) (ips : List String) :
    List (Nat × String × String) :=
  hostErrorsIdxFrom f 0 ips

/-- `registry.concurrencyExecute`: run `f` on every host of `ips` in one
`errgroup`.  Each task calls `f(host)` on the per-iteration copy `host`,
but the error it returns interpolates the shared range variable `ip`
(`fmt.Errorf("on host [%s]: %v", ip.String(), err)`), whose value when
the goroutine body runs is the address of the spawning iteration or any
later one.  `errgroup.Wait` returns `nil` when every task succeeded and
otherwise the single error of the first task to fail.  `sched` picks
which failed task that is, and `ipLag` how far the loop variable had
advanced past the spawning iteration when the goroutine read it (capped
at the last iteration). -/
def concurrencyExecute (sched ipLag : Nat) (f : String → Option String)
    (ips : List String) : Option (String × String) :=
  match hostErrorsIdx f ips with
  | [] => none
  | e :: es =>
    let chosen := (e :: es).getD (sched % (e :: es).length) e
    some (ips.getD (min (chosen.1 + ipLag) (ips.length - 1)) "", chosen.2.2)

/-- The two remote actions `mountRootfs` performs on a host, in order. -/
inductive RootfsStep
  | copyRootfs
  | initScript
deriving DecidableEq, Repr

/-- The body of one `mountRootfs` goroutine: `SSH.Copy`, then — with no
early return even when the copy failed — `SSH.CmdAsync` of the init
command.  Either failure only sets the shared `flag`.  Returns the
actions issued on the host and that host's flag contribution. -/
def mountRootfsHostTask (copyRes initRes : String → Option String)
    (ip : String) : List (String × RootfsStep) × Bool :=
  ([(ip, RootfsStep.copyRootfs), (ip, RootfsStep.initScript)],
    (copyRes ip).isSome || (initRes ip).isSome)

/-- `filesystem.mountRootfs`: first `ssh.WaitSSHReady` on the whole
batch (`sshReadyRes`), returning its error wrapped as
`check for node ssh service time out: …` with no goroutine launched when
it fails; then fan one goroutine out per host, wait for all, and return
the fixed error `"mountRootfs failed"` when any host set the flag, else
`nil`.  The trace lists the per-host action sequences in launch order;
goroutine interleaving permutes actions of distinct hosts but never the
two actions of one host, and the claims proved below only concern which
actions occur per host. -/
def mountRootfs (sshReadyRes : Option String)
    (copyRes initRes : String → Option String)
    (ipList : List String) : Option String × List (String × RootfsStep) :=
  match sshReadyRes with
  | some e => (some ("check for node ssh service time out: " ++ e), [])
  | none =>
    let results := ipList.map (mountRootfsHostTask copyRes initRes)
    (if results.any (fun r => r.2) then some "mountRootfs failed" else none,
      (results.map (fun r => r.1)).flatten)

/-! ### k0s `Runtime.upgrade` / `upgradeMasters` / `upgradeNodes` -/

/-- The four shell commands issued per host, in source order: grant
execute permission, move (replace) the binary into `/usr/bin`, stop the
k0s service, start the k0s service. -/
inductive K0sCmd
  | chmodBin
  | moveBinary
  | stopService
  | startService
deriving DecidableEq, Repr

def upgradeHostCmds : List K0sCmd :=
  [K0sCmd.chmodBin, K0sCmd.moveBinary, K0sCmd.stopService, K0sCmd.startService]

def upgradeHostEvents (ip : String) : List (String × K0sCmd) :=
  upgradeHostCmds.map (fun c => (ip, c))

/-- One role tier of the upgrade (`upgradeMasters` and `upgradeNodes`
behave identically): hosts are handled strictly one after another; for
each host an SSH client is obtained (`sshRes`, failing before any
command is issued) and then the four commands are sent as one
`CmdAsync` (`cmdRes`); the first failure aborts the whole tier. -/
def upgradeTier (sshRes cmdRes : String → Option String) :
    List String → Option String × List (String × K0sCmd)
  | [] => (none, [])
  | ip :: rest =>
    match sshRes ip with
    | some e => (some ("failed to get ssh client: " ++ e), [])
    | none =>
      match cmdRes ip with
      | some e => (some e, upgradeHostEvents ip)
      | none =>
        let r := upgradeTier sshRes cmdRes rest
        (r.1, upgradeHostEvents ip ++ r.2)

/-- k0s `Runtime.upgrade`: master-zero (the head of the master list, per
`GetMaster0IP`) first, then the remaining masters, then all workers,
each tier aborting the sequence on error. -/
def upgrade (sshRes cmdRes : String → Option String)
    (masters workers : List String) : Option String × List (String × K0sCmd) :=
  let r0 := upgradeTier sshRes cmdRes (masters.take 1)
  match r0.1 with
  | some e => (some e, r0.2)
  | none =>
    let r1 := upgradeTier sshRes cmdRes (masters.drop 1)
    match r1.1 with
    | some e => (some e, r0.2 ++ r1.2)
    | none =>
      let r2 := upgradeTier sshRes cmdRes workers
      (r2.1, r0.2 ++ r1.2 ++ r2.2)

/-- The event trace of a tier run to completion: the per-host command
blocks, one host after another, in list order. -/
def tierEvents (l : List String) : List (String × K0sCmd) :=
  (l.map upgradeHostEvents).flatten

/-- The command trace of one `upgrade` run. -/
def upgradeTrace (sshRes cmdRes : String → Option String)
    (masters workers : List String) : List (String × K0sCmd) :=
  (upgrade sshRes cmdRes masters workers).2

/-! ### kubernetes `Runtime.ScaleUp` / `Runtime.joinNodes` -/

/-- Go `net.JoinHostPort`. -/
def joinHostPort (h p : String) : String := h ++ ":" ++ p

/-- What `joinNodes` installs on one worker: the ipvs real-server flags
of the `seautil ipvs` command, the backend list baked into the lvscare
static-pod manifest (Modelled from the spec: `ipvs.LvsStaticPodYaml` is
not under src/; per the spec the manifest is rendered from the virtual
IP and the given backend list), and the join endpoint written into
`JoinConfiguration.Discovery.BootstrapToken.APIServerEndpoint`. -/
structure NodeJoinConfig where
  ipvsRealServers : List String
  lvscareBackends : List String
  joinEndpoint : String
deriving DecidableEq, Repr

/-- The worker configuration built once in `joinNodes` and applied to
every joined worker: one `--rs ip:6443` per master, the lvscare manifest
over the same master list, and the cluster VIP (not any individual
master) as the join endpoint. -/
def nodeJoinConfigFor (vip : String) (masters : List String) : NodeJoinConfig :=
  { ipvsRealServers := masters.map (fun m => "--rs " ++ joinHostPort m "6443")
    lvscareBackends := masters
    joinEndpoint := joinHostPort vip "6443" }

/-- The first per-task error an `errgroup.Wait` surfaces when every
task's error names its own host (`joinNodes` wraps the per-iteration
copy `node` in its messages, unlike `concurrencyExecute`): `nil` when
all tasks succeed, else the `(host, cause)` of the first task to fail,
chosen by the scheduling `sched`. -/
def firstTaskError (sched : Nat) (f : String → Option String)
    (ips : List String) : Option (String × String) :=
  match hostErrors f ips with
  | [] => none
  | e :: es => some ((e :: es).getD (sched % (e :: es).length) e)

/-- `Runtime.joinNodes`: immediately `nil` for an empty worker list;
otherwise `initKube` on all new nodes (aborting before any join when it
fails), then one goroutine per node installing the shared
`nodeJoinConfigFor vip masters`; `errgroup.Wait` surfaces the first
per-node error (`sched` abstracts scheduling).  The second component
records which configuration was installed on which node. -/
def joinNodes (sched : Nat) (vip : String) (initKubeRes : Option String)
    (perNodeRes : String → Option String) (newNodes masters : List String) :
    Option (String × String) × List (String × NodeJoinConfig) :=
  if newNodes.isEmpty then (none, [])
  else
    match initKubeRes with
    | some e => (some ("initKube", e), [])
    | none =>
      (firstTaskError sched perNodeRes newNodes,
        newNodes.map (fun n => (n, nodeJoinConfigFor vip masters)))

/-- kubernetes `Runtime.ScaleUp`.  `masters` is
`k.infra.GetHostIPListByRole(MASTER)` — Modelled from the spec: the
infradriver is not under src/; per the spec the driver is built from the
desired cluster, whose inventory already holds the full post-scale
master list (old and new masters) when `ScaleUp` runs.  Loading the
kubeadm config, fetching a fresh token from master-zero, and
`joinMasters` are earlier steps whose failures abort the operation. -/
def ScaleUp (sched : Nat) (vip : String) (masters : List String)
    (loadCfgRes tokenRes joinMastersRes initKubeRes : Option String)
    (perNodeRes : String → Option String) (newWorkers : List String) :
    Option (String × String) × List (String × NodeJoinConfig) :=
  match loadCfgRes with
  | some e => (some ("loadKubeadmConfig", e), [])
  | none =>
    match tokenRes with
    | some e => (some ("getJoinTokenHashAndKey", e), [])
    | none =>
      match joinMastersRes with
      | some e => (some ("joinMasters", e), [])
      | none => joinNodes sched vip initKubeRes perNodeRes newWorkers masters

/-! ### kubernetes `Runtime.ScaleDown` -/

/-- Modelled from the spec: `utils/net.IsInIPList` is not under src/; it
is membership of an IP in an IP list. -/
def isInIPList (ip : String) (l : List String) : Bool :=
  l.contains ip

/-- Modelled from the spec: `utils/net.RemoveIPs` is not under src/; it
keeps, in order, the members of the first list that do not occur in the
second — the same element-wise removal as `removeIPList` in
`cmd/sealer/cmd/utils/cluster.go`. -/
def removeIPs (l toRemove : List String) : List String :=
  l.filter (fun ip => !(isInIPList ip toRemove))

/-- The remote/interactive effects `ScaleDown` can issue, in the order
the source issues them. -/
inductive SDEvent
  | confirm (role : String) (hosts : List String)
  | deleteNodesOp (toDelete remainMasters : List String)
  | deleteMastersOp (toDelete remainMasters remainWorkers : List String)
deriving DecidableEq, Repr

inductive SDError
  | allMastersRemoved
  | confirmAborted (e : String)
  | deleteNodesFailed (e : String)
  | deleteMastersFailed (e : String)
deriving DecidableEq, Repr

/-- Outcomes of the collaborators `ScaleDown` drives (the confirmation
prompt and the node/master teardown helpers are not under src/ and are
treated as oracles recording only success or an error). -/
structure SDOracle where
  confirmRes : String → List String → Option String
  deleteNodesRes : List String → List String → Option String
  deleteMastersRes : List String → List String → List String → Option String

def MASTER : String := "master"

def NODE : String := "node"

/-- The `if len(workersToDelete) > 0` block of `ScaleDown`: confirm,
then `deleteNodes(workersToDelete, remainMasters)`. -/
def scaleDownWorkerStage (o : SDOracle) (workersToDelete remainMasters : List String) :
    Option SDError × List SDEvent :=
  if workersToDelete.isEmpty then (none, [])
  else
    match o.confirmRes NODE workersToDelete with
    | some e => (some (SDError.confirmAborted e), [SDEvent.confirm NODE workersToDelete])
    | none =>
      match o.deleteNodesRes workersToDelete remainMasters with
      | some e =>
        (some (SDError.deleteNodesFailed e),
          [SDEvent.confirm NODE workersToDelete,
            SDEvent.deleteNodesOp workersToDelete remainMasters])
      | none =>
        (none,
          [SDEvent.confirm NODE workersToDelete,
            SDEvent.deleteNodesOp workersToDelete remainMasters])

/-- The `if len(mastersToDelete) > 0` block of `ScaleDown`: confirm,
then `deleteMasters(mastersToDelete, remainMasters, remainWorkers)`. -/
def scaleDownMasterStage (o : SDOracle)
    (mastersToDelete remainMasters remainWorkers : List String) :
    Option SDError × List SDEvent :=
  if mastersToDelete.isEmpty then (none, [])
  else
    match o.confirmRes MASTER mastersToDelete with
    | some e => (some (SDError.confirmAborted e), [SDEvent.confirm MASTER mastersToDelete])
    | none =>
      match o.deleteMastersRes mastersToDelete remainMasters remainWorkers with
      | some e =>
        (some (SDError.deleteMastersFailed e),
          [SDEvent.confirm MASTER mastersToDelete,
            SDEvent.deleteMastersOp mastersToDelete remainMasters remainWorkers])
      | none =>
        (none,
          [SDEvent.confirm MASTER mastersToDelete,
            SDEvent.deleteMastersOp mastersToDelete remainMasters remainWorkers])

/-- kubernetes `Runtime.ScaleDown`, with the trace of issued effects:
compute the surviving masters; refuse with a fatal configuration error —
before any prompt or remote command — when none would remain; otherwise
confirm and delete the requested workers, then confirm and delete the
requested masters (with `remainWorkers := RemoveIPs(workers,
workersToDelete)`), aborting on the first failure. -/
def ScaleDown (o : SDOracle) (masters workers mastersToDelete workersToDelete : List String) :
    Option SDError × List SDEvent :=
  let remainMasters := removeIPs masters mastersToDelete
  if remainMasters.isEmpty then (some SDError.allMastersRemoved, [])
  else
    let s1 := scaleDownWorkerStage o workersToDelete remainMasters
    match s1.1 with
    | some e => (some e, s1.2)
    | none =>
      let s2 := scaleDownMasterStage o mastersToDelete remainMasters
        (removeIPs workers workersToDelete)
      (s2.1, s1.2 ++ s2.2)

/-! ### kubernetes `Runtime.Upgrade` (dockerInstaller.go) -/

/-- The observable way a Go call ends: a returned value or a panic. -/
inductive GoResult
  | ok (err : Option String)
  | panicked (msg : String)
deriving DecidableEq, Repr

/-- kubernetes `Runtime.Upgrade`: the body is exactly
`panic("now not support upgrade")`. -/
def RuntimeUpgrade : GoResult :=
  GoResult.panicked "now not support upgrade"

/-! ### `ConstructClusterForScaleUp` / `ConstructClusterForScaleDown` -/

structure SSHCfg where
  User : String
  Passwd : String
  Port : String
  Pk : String
  PkPasswd : String
deriving DecidableEq, Repr

def emptySSH : SSHCfg :=
  { User := "", Passwd := "", Port := "", Pk := "", PkPasswd := "" }

structure V2Host where
  IPS : List String
  Roles : List String
  SSH : SSHCfg
deriving DecidableEq, Repr

structure ClusterSpec where
  SSH : SSHCfg
  Hosts : List V2Host
  Env : List String
deriving DecidableEq, Repr

structure V2Cluster where
  Spec : ClusterSpec
deriving DecidableEq, Repr

/-- Modelled from the spec: the role-to-host index accessors of
`types/api/v2` are not under src/; per the spec the index maps a role
name to the ordered list of host IPs holding that role. -/
def getIPListByRole (c : V2Cluster) (role : String) : List String :=
  ((c.Spec.Hosts.filter (fun h => h.Roles.contains role)).map
    (fun h => h.IPS)).flatten

def GetMasterIPList (c : V2Cluster) : List String :=
  getIPListByRole c MASTER

def GetNodeIPList (c : V2Cluster) : List String :=
  getIPListByRole c NODE

/-- `constructHost`: the new host entry carries the scale flags' SSH
configuration only when it differs from the cluster-wide one
(`reflect.DeepEqual`), else the zero value. -/
def constructHost (role : String) (joinIPs : List String)
    (scaleFlagSSH clusterSSH : SSHCfg) : V2Host :=
  if scaleFlagSSH = clusterSSH then
    { IPS := joinIPs, Roles := [role], SSH := emptySSH }
  else
    { IPS := joinIPs, Roles := [role], SSH := scaleFlagSSH }

/-- One `if len(joinXs) != 0` block of `ConstructClusterForScaleUp`:
scan the join list for an IP already holding the role (`existingIPs`),
returning the Go error on the first duplicate, and otherwise append one
new host entry built by `constructHost`. -/
def scaleUpStage (role : String) (existingIPs : List String) (c : V2Cluster)
    (scaleFlagSSH clusterSSH : SSHCfg) (joinIPs : List String) :
    Option String × V2Cluster :=
  if joinIPs.isEmpty then (none, c)
  else
    match joinIPs.find? (fun ip => isInIPList ip existingIPs) with
    | some ip => (some ("failed to scale " ++ role ++ " for duplicated ip: " ++ ip), c)
    | none =>
      (none,
        { Spec := { c.Spec with
            Hosts := c.Spec.Hosts ++
              [constructHost role joinIPs scaleFlagSSH clusterSSH] } })

/-- `ConstructClusterForScaleUp`, mutation modelled by returning the
cluster value after the call next to the Go error: custom env entries
are appended to the cluster before any validation; then the master
stage and — only when it passed — the worker stage, the latter reading
the node IP list of the already-mutated cluster. -/
def ConstructClusterForScaleUp (cluster : V2Cluster) (customEnv : List String)
    (scaleFlagSSH : SSHCfg) (joinMasters joinWorkers : List String) :
    Option String × V2Cluster :=
  let c1 : V2Cluster :=
    { Spec := { cluster.Spec with Env := cluster.Spec.Env ++ customEnv } }
  let afterMasters :=
    scaleUpStage MASTER (GetMasterIPList c1) c1 scaleFlagSSH cluster.Spec.SSH joinMasters
  match afterMasters.1 with
  | some e => (some e, afterMasters.2)
  | none =>
    scaleUpStage NODE (GetNodeIPList afterMasters.2) afterMasters.2
      scaleFlagSSH cluster.Spec.SSH joinWorkers

/-- `removeIPList` (cmd/sealer/cmd/utils/cluster.go): keep, in order,
the IPs of the first list that are not in the second. -/
def removeIPList (clusterIPList toBeDeletedIPList : List String) : List String :=
  clusterIPList.filter (fun ip => !(isInIPList ip toBeDeletedIPList))

/-- The body of the `for i := range cluster.Spec.Hosts` loops of
`ConstructClusterForScaleDown`: when the host entry carries the role,
strip the to-be-deleted IPs from it, else leave it alone. -/
def roleStrip (role : String) (toDelete : List String) (h : V2Host) : V2Host :=
  if h.Roles.contains role then
    { h with IPS := removeIPList h.IPS toDelete }
  else h

/-- The IPs a host entry keeps across a scale-down, in their original
relative order: an IP is dropped exactly when the entry carries the
master role and the IP is in `mastersToDelete`, or the entry carries the
node role and the IP is in `workersToDelete`. -/
def survivingIPS (mastersToDelete workersToDelete : List String)
    (h : V2Host) : List String :=
  h.IPS.filter (fun ip =>
    !(h.Roles.contains MASTER && isInIPList ip mastersToDelete) &&
    !(h.Roles.contains NODE && isInIPList ip workersToDelete))

/-- `ConstructClusterForScaleDown`: when the master deletion list is
non-empty, strip those IPs from every host entry carrying the master
role; likewise for workers and the node role; finally prune every host
entry left with no IP.  Always returns `nil`. -/
def ConstructClusterForScaleDown (cluster : V2Cluster)
    (mastersToDelete workersToDelete : List String) : Option String × V2Cluster :=
  let hosts1 :=
    if mastersToDelete.isEmpty then cluster.Spec.Hosts
    else cluster.Spec.Hosts.map (roleStrip MASTER mastersToDelete)
  let hosts2 :=
    if workersToDelete.isEmpty then hosts1
    else hosts1.map (roleStrip NODE workersToDelete)
  let hosts3 := hosts2.filter (fun h => !h.IPS.isEmpty)
  (none, { Spec := { cluster.Spec with Hosts := hosts3 } })

/-- A literal captured bootstrap output: prose, the join command line of
the claim, and a terminating `Please note` sentence. -/
def master0OutputLiteral : String :=
  "Your Kubernetes control-plane is ready! You can now join any number of machines by running the following on each node as root: kubeadm join 192.168.0.200:6443 --token 9vr73a.a8uxyaju799qwdjv --discovery-token-ca-cert-hash sha256:7c2e69131a36ae2a042a339b33381c6d0d43887e2de83720eff5359e26aec866 --experimental-control-plane --certificate-key f8902e114ef118304e561c3ecd4d0b543adc226b7a07f675f56564185ffe0c07extra Please note that the certificate key gives access to cluster sensitive data, keep it secret!"

/-- The value following `--certificate-key` in the literal, with its
trailing `extra`. -/
def certKeyValueLiteral : String :=
  "f8902e114ef118304e561c3ecd4d0b543adc226b7a07f675f56564185ffe0c07extra"

/-- A concrete two-host cluster: one master `1.1.1.1`, one worker
`2.2.2.2`. -/
def scaleUpExampleCluster : V2Cluster :=
  { Spec :=
    { SSH := emptySSH
      Hosts :=
        [{ IPS := ["1.1.1.1"], Roles := [MASTER], SSH := emptySSH },
         { IPS := ["2.2.2.2"], Roles := [NODE], SSH := emptySSH }]
      Env := [] } }

end Sealer

namespace Sealer

/-! ### Lemmas on the Go string primitives -/

theorem splitFuel_of_not_contains (sep : List Char) :
    ∀ (s : List Char) (n : Nat), containsGoL sep s = false → splitFuel sep n s = [s]
  | [], n, _ => by cases n <;> rfl
  | _ :: _, 0, _ => rfl
  | c :: cs, Nat.succ n, h => by
    simp only [containsGoL, Bool.or_eq_false_iff] at h
    have IH := splitFuel_of_not_contains sep cs n h.2
    simp [splitFuel, h.1, IH]

theorem goSplit_of_not_contains (s sep : String) (h : goContains s sep = false) :
    goSplit s sep = [s] := by
  have h2 : containsGoL sep.data s.data = false := h
  unfold goSplit goSplitL
  rw [splitFuel_of_not_contains sep.data s.data _ h2]
  rfl

/-! ### Lemmas on the join-command decoder -/

theorem applyTokenFlag_skip (r2 : String) (rest : List String)
    (st : BootstrapTokenDiscovery × String)
    (h : goContains r2 "--token" = false) :
    applyTokenFlag r2 rest st = some st := by
  simp [applyTokenFlag, h]

theorem applyCAHashFlag_skip (r2 : String) (rest : List String)
    (st : BootstrapTokenDiscovery × String)
    (h : goContains r2 "--discovery-token-ca-cert-hash" = false) :
    applyCAHashFlag r2 rest st = some st := by
  simp [applyCAHashFlag, h]

theorem applyCertKeyFlag_skip (r2 : String) (rest : List String)
    (st : BootstrapTokenDiscovery × String)
    (h : goContains r2 "--certificate-key" = false) :
    applyCertKeyFlag r2 rest st = some st := by
  simp [applyCertKeyFlag, h]

theorem applyTokenFlag_others (r2 : String) (rest : List String)
    (st st2 : BootstrapTokenDiscovery × String)
    (he : applyTokenFlag r2 rest st = some st2) :
    st2.1.CACertHashes = st.1.CACertHashes ∧ st2.2 = st.2 := by
  unfold applyTokenFlag at he
  split at he
  · match rest, he with
    | next :: _, he => cases he; exact ⟨rfl, rfl⟩
  · cases he; exact ⟨rfl, rfl⟩

theorem applyCAHashFlag_others (r2 : String) (rest : List String)
    (st st2 : BootstrapTokenDiscovery × String)
    (he : applyCAHashFlag r2 rest st = some st2) :
    st2.1.Token = st.1.Token ∧ st2.2 = st.2 := by
  unfold applyCAHashFlag at he
  split at he
  · match rest, he with
    | next :: _, he => cases he; exact ⟨rfl, rfl⟩
  · cases he; exact ⟨rfl, rfl⟩

theorem applyCertKeyFlag_others (r2 : String) (rest : List String)
    (st st2 : BootstrapTokenDiscovery × String)
    (he : applyCertKeyFlag r2 rest st = some st2) :
    st2.1 = st.1 := by
  unfold applyCertKeyFlag at he
  split at he
  · match rest, he with
    | next :: _, he =>
      dsimp only at he
      split at he
      · cases he
      · cases he; rfl
  · cases he; rfl

theorem decodeJoinStep_skip (r2 : String) (rest : List String)
    (st : BootstrapTokenDiscovery × String)
    (h1 : goContains r2 "--token" = false)
    (h2 : goContains r2 "--discovery-token-ca-cert-hash" = false)
    (h3 : goContains r2 "--certificate-key" = false) :
    decodeJoinStep r2 rest st = some st := by
  unfold decodeJoinStep
  rw [applyTokenFlag_skip r2 rest st h1]
  show (applyCAHashFlag r2 rest st).bind _ = some st
  rw [applyCAHashFlag_skip r2 rest st h2]
  exact applyCertKeyFlag_skip r2 rest st h3

theorem decodeJoinLoop_skip :
    ∀ (slice : List String) (st : BootstrapTokenDiscovery × String),
      (∀ r ∈ slice, goContains (cleanJoinToken r) "--token" = false ∧
        goContains (cleanJoinToken r) "--discovery-token-ca-cert-hash" = false ∧
        goContains (cleanJoinToken r) "--certificate-key" = false) →
      decodeJoinLoop slice st = some st
  | [], _, _ => rfl
  | r :: rest, st, h => by
    have hr := h r (List.mem_cons_self r rest)
    rw [decodeJoinLoop, decodeJoinStep_skip _ _ _ hr.1 hr.2.1 hr.2.2]
    exact decodeJoinLoop_skip rest st (fun x hx => h x (List.mem_cons_of_mem r hx))

/-- Each loop iteration leaves the field of a marker untouched when the
cleaned token does not contain that marker. -/
theorem decodeJoinStep_marker (m : JoinMarker) (r2 : String) (rest : List String)
    (st st2 : BootstrapTokenDiscovery × String)
    (h : goContains r2 (markerText m) = false)
    (he : decodeJoinStep r2 rest st = some st2) :
    markerUnchanged m st2 st := by
  unfold decodeJoinStep at he
  cases h1 : applyTokenFlag r2 rest st with
  | none => rw [h1] at he; exact Option.noConfusion he
  | some a =>
    rw [h1] at he
    replace he : ((applyCAHashFlag r2 rest a).bind fun x =>
        applyCertKeyFlag r2 rest x) = some st2 := he
    cases h2 : applyCAHashFlag r2 rest a with
    | none => rw [h2] at he; exact Option.noConfusion he
    | some b =>
      rw [h2] at he
      have he3 : applyCertKeyFlag r2 rest b = some st2 := he
      cases m
      case tokenM =>
        have ha : a = st := by
          rw [applyTokenFlag_skip r2 rest st h] at h1; cases h1; rfl
        have hb := applyCAHashFlag_others r2 rest a b h2
        have hc := applyCertKeyFlag_others r2 rest b st2 he3
        show st2.1.Token = st.1.Token
        rw [hc, hb.1, ha]
      case caHashM =>
        have ha := applyTokenFlag_others r2 rest st a h1
        have hb : b = a := by
          rw [applyCAHashFlag_skip r2 rest a h] at h2; cases h2; rfl
        have hc := applyCertKeyFlag_others r2 rest b st2 he3
        show st2.1.CACertHashes = st.1.CACertHashes
        rw [hc, hb, ha.1]
      case certKeyM =>
        have ha := applyTokenFlag_others r2 rest st a h1
        have hb := applyCAHashFlag_others r2 rest a b h2
        have hc : st2 = b := by
          rw [applyCertKeyFlag_skip r2 rest b h] at he3; cases he3; rfl
        show st2.2 = st.2
        rw [hc, hb.2, ha.2]

theorem markerUnchanged_trans (m : JoinMarker)
    (a b c : BootstrapTokenDiscovery × String)
    (h1 : markerUnchanged m a b) (h2 : markerUnchanged m b c) :
    markerUnchanged m a c := by
  cases m <;> simp only [markerUnchanged] at h1 h2 ⊢ <;> rw [h1, h2]

theorem decodeJoinLoop_marker (m : JoinMarker) :
    ∀ (slice : List String) (st st2 : BootstrapTokenDiscovery × String),
      (∀ r ∈ slice, goContains (cleanJoinToken r) (markerText m) = false) →
      decodeJoinLoop slice st = some st2 →
      markerUnchanged m st2 st
  | [], st, st2, _, he => by
    cases he
    cases m <;> simp [markerUnchanged]
  | r :: rest, st, st2, h, he => by
    rw [decodeJoinLoop] at he
    cases hstep : decodeJoinStep (cleanJoinToken r) rest st with
    | none => rw [hstep] at he; cases he
    | some st1 =>
      rw [hstep] at he
      have h1 := decodeJoinStep_marker m (cleanJoinToken r) rest st st1
        (h r (List.mem_cons_self r rest)) hstep
      have h2 := decodeJoinLoop_marker m rest st1 st2
        (fun x hx => h x (List.mem_cons_of_mem r hx)) he
      exact markerUnchanged_trans m st2 st1 st h2 h1

set_option maxRecDepth 200000 in
/-- C2: parsing the literal captured bootstrap output containing the join
command line `kubeadm join 192.168.0.200:6443 --token 9vr73a.a8uxyaju799qwdjv
--discovery-token-ca-cert-hash sha256:7c2e…aec866 --experimental-control-plane
--certificate-key f8902e…0c07extra` followed by a `Please note` sentence
yields token `9vr73a.a8uxyaju799qwdjv`, the CA-cert-hash list containing
exactly `sha256:7c2e…aec866`, and a certificate key equal to exactly the
first 64 characters of the value following `--certificate-key`, the
trailing `extra` discarded. -/
theorem decode_literal_roundtrip :
    decodeMaster0Output master0OutputLiteral =
      some ({ Token := "9vr73a.a8uxyaju799qwdjv",
              CACertHashes :=
                ["sha256:7c2e69131a36ae2a042a339b33381c6d0d43887e2de83720eff5359e26aec866"] },
            "f8902e114ef118304e561c3ecd4d0b543adc226b7a07f675f56564185ffe0c07") ∧
      "f8902e114ef118304e561c3ecd4d0b543adc226b7a07f675f56564185ffe0c07" =
        String.mk (certKeyValueLiteral.data.take 64) ∧
      certKeyValueLiteral = "f8902e114ef118304e561c3ecd4d0b543adc226b7a07f675f56564185ffe0c07" ++ "extra" := by
  refine ⟨?_, ?_, ?_⟩ <;> decide

set_option maxRecDepth 200000 in
/-- C3 counterexample: a bootstrap output in which the introducing
substring `kubeadm join` is absent.  `decodeMaster0Output` accesses
`slice[1]` of a one-element slice, a Go index-out-of-range panic
(modelled `none`), so parsing does not complete, contrary to the claim
that it completes with zero-valued fields and no out-of-bounds access. -/
theorem decodeMaster0Output_panics_without_join_marker :
    decodeMaster0Output "error: some preflight failure output" = none := by
  decide

/-- C3 (amended): absence of the introducing substring `kubeadm join`
makes `decodeMaster0Output` abort with an out-of-bounds access (modelled
`none`); for each of the three flag markers, if the marker occurs in no
cleaned whitespace token of the join command then, whenever the decode
loop completes, the corresponding output field keeps its zero value; and
when none of the three markers occurs in any token, `decodeJoinCmd`
completes without panic with all fields at their zero values. -/
theorem decodeJoin_missing_markers (s cmd cmdAll : String) (m : JoinMarker)
    (st : BootstrapTokenDiscovery × String)
    (hjoin : goContains s "kubeadm join" = false)
    (hm : ∀ r ∈ goSplit cmd " ", goContains (cleanJoinToken r) (markerText m) = false)
    (hall : ∀ r ∈ goSplit cmdAll " ",
      goContains (cleanJoinToken r) "--token" = false ∧
      goContains (cleanJoinToken r) "--discovery-token-ca-cert-hash" = false ∧
      goContains (cleanJoinToken r) "--certificate-key" = false) :
    decodeMaster0Output s = none ∧
    (decodeJoinCmd cmd = some st →
      markerUnchanged m st ({ Token := "", CACertHashes := [] }, "")) ∧
    decodeJoinCmd cmdAll = some ({ Token := "", CACertHashes := [] }, "") := by
  refine ⟨?_, ?_, ?_⟩
  · rw [decodeMaster0Output, goSplit_of_not_contains s "kubeadm join" hjoin]
  · intro he
    exact decodeJoinLoop_marker m (goSplit cmd " ") _ st hm he
  · exact decodeJoinLoop_skip (goSplit cmdAll " ") _ hall

set_option maxRecDepth 200000 in
/-- C3 witness: concrete instantiation of `decodeJoin_missing_markers`. -/
theorem decodeJoin_missing_markers_witness :
    (goContains "error: some preflight output" "kubeadm join" = false ∧
      (∀ r ∈ goSplit "--certificate-key" " ",
        goContains (cleanJoinToken r) (markerText JoinMarker.tokenM) = false) ∧
      (∀ r ∈ goSplit "abc def" " ",
        goContains (cleanJoinToken r) "--token" = false ∧
        goContains (cleanJoinToken r) "--discovery-token-ca-cert-hash" = false ∧
        goContains (cleanJoinToken r) "--certificate-key" = false)) ∧
    (decodeMaster0Output "error: some preflight output" = none ∧
      (decodeJoinCmd "--certificate-key" =
          some ({ Token := "", CACertHashes := [] }, "") →
        markerUnchanged JoinMarker.tokenM
          ({ Token := "", CACertHashes := [] }, "")
          ({ Token := "", CACertHashes := [] }, "")) ∧
      decodeJoinCmd "abc def" = some ({ Token := "", CACertHashes := [] }, "")) := by
  refine ⟨⟨by decide, by decide, by decide⟩, ?_⟩
  exact decodeJoin_missing_markers "error: some preflight output"
    "--certificate-key" "abc def" JoinMarker.tokenM
    ({ Token := "", CACertHashes := [] }, "")
    (by decide) (by decide) (by decide)

/-! ### C1: ScaleDown refuses to remove every master -/

theorem scaleDownWorkerStage_no_fatal (o : SDOracle)
    (workersToDelete remainMasters : List String) :
    (scaleDownWorkerStage o workersToDelete remainMasters).1 ≠
      some SDError.allMastersRemoved := by
  unfold scaleDownWorkerStage
  split
  · simp
  · split
    · simp
    · split <;> simp

theorem scaleDownMasterStage_no_fatal (o : SDOracle)
    (mastersToDelete remainMasters remainWorkers : List String) :
    (scaleDownMasterStage o mastersToDelete remainMasters remainWorkers).1 ≠
      some SDError.allMastersRemoved := by
  unfold scaleDownMasterStage
  split
  · simp
  · split
    · simp
    · split <;> simp

theorem scaleDownWorkerStage_head (o : SDOracle)
    (workersToDelete remainMasters : List String)
    (hne : workersToDelete ≠ []) :
    (scaleDownWorkerStage o workersToDelete remainMasters).2.head? =
      some (SDEvent.confirm NODE workersToDelete) := by
  unfold scaleDownWorkerStage
  rw [if_neg (by simpa using hne)]
  split
  · rfl
  · split <;> rfl

theorem scaleDownMasterStage_head (o : SDOracle)
    (mastersToDelete remainMasters remainWorkers : List String)
    (hne : mastersToDelete ≠ []) :
    (scaleDownMasterStage o mastersToDelete remainMasters remainWorkers).2.head? =
      some (SDEvent.confirm MASTER mastersToDelete) := by
  unfold scaleDownMasterStage
  rw [if_neg (by simpa using hne)]
  split
  · rfl
  · split <;> rfl

/-- C1: for every cluster state and every ScaleDown request, if removing
the requested masters would leave zero remaining masters, `ScaleDown`
returns the fatal configuration error with an empty effect trace — no
confirmation prompt and no remote command is ever issued; otherwise the
fatal error is never returned and the operation proceeds to the
confirmation/deletion flow (its first effect is the worker confirmation
prompt when workers are to be removed, else the master confirmation
prompt when masters are to be removed). -/
theorem scaleDown_refuses_removing_all_masters (o : SDOracle)
    (masters workers mastersToDelete workersToDelete : List String) :
    (removeIPs masters mastersToDelete = [] →
      ScaleDown o masters workers mastersToDelete workersToDelete =
        (some SDError.allMastersRemoved, [])) ∧
    (removeIPs masters mastersToDelete ≠ [] →
      (ScaleDown o masters workers mastersToDelete workersToDelete).1 ≠
          some SDError.allMastersRemoved ∧
        (workersToDelete ≠ [] →
          (ScaleDown o masters workers mastersToDelete workersToDelete).2.head? =
            some (SDEvent.confirm NODE workersToDelete)) ∧
        (workersToDelete = [] → mastersToDelete ≠ [] →
          (ScaleDown o masters workers mastersToDelete workersToDelete).2.head? =
            some (SDEvent.confirm MASTER mastersToDelete))) := by
  constructor
  · intro hr
    unfold ScaleDown
    rw [hr]
    rfl
  · intro hr
    have hne : (removeIPs masters mastersToDelete).isEmpty = false := by
      rcases hrm : removeIPs masters mastersToDelete with _ | ⟨x, xs⟩
      · exact absurd hrm hr
      · rfl
    simp only [ScaleDown, hne, Bool.false_eq_true, if_false]
    refine ⟨?_, ?_, ?_⟩
    · cases hs1 : (scaleDownWorkerStage o workersToDelete
          (removeIPs masters mastersToDelete)).1 with
      | some e =>
        intro hcontra
        have : some e = some SDError.allMastersRemoved := by
          simpa using hcontra
        rw [this] at hs1
        exact scaleDownWorkerStage_no_fatal o workersToDelete
          (removeIPs masters mastersToDelete) hs1
      | none =>
        simpa using scaleDownMasterStage_no_fatal o mastersToDelete
          (removeIPs masters mastersToDelete) (removeIPs workers workersToDelete)
    · intro hw
      cases hs1 : (scaleDownWorkerStage o workersToDelete
          (removeIPs masters mastersToDelete)).1 with
      | some e =>
        simpa using scaleDownWorkerStage_head o workersToDelete
          (removeIPs masters mastersToDelete) hw
      | none =>
        have hhd := scaleDownWorkerStage_head o workersToDelete
          (removeIPs masters mastersToDelete) hw
        rcases htr : (scaleDownWorkerStage o workersToDelete
            (removeIPs masters mastersToDelete)).2 with _ | ⟨ev, evs⟩
        · rw [htr] at hhd; exact absurd hhd (by simp)
        · rw [htr] at hhd
          simpa using hhd
    · intro hw hm
      subst hw
      have hs1 : scaleDownWorkerStage o [] (removeIPs masters mastersToDelete) =
          (none, []) := rfl
      rw [hs1]
      simpa using scaleDownMasterStage_head o mastersToDelete
        (removeIPs masters mastersToDelete) (removeIPs workers []) hm

/-- C1 witness: a concrete ScaleDown request that would delete the only
master is refused with the fatal configuration error and an empty
effect trace. -/
theorem scaleDown_refuses_removing_all_masters_witness :
    ScaleDown ⟨fun _ _ => none, fun _ _ => none, fun _ _ _ => none⟩
        ["10.0.0.1"] ["10.0.0.9"] ["10.0.0.1"] ["10.0.0.9"] =
      (some SDError.allMastersRemoved, []) :=
  (scaleDown_refuses_removing_all_masters
    ⟨fun _ _ => none, fun _ _ => none, fun _ _ _ => none⟩
    ["10.0.0.1"] ["10.0.0.9"] ["10.0.0.1"] ["10.0.0.9"]).1 (by decide)

/-! ### C4/C5: batch aggregation and rootfs distribution -/

theorem getD_mem_of_mem {α : Type} (l : List α) (n : Nat) (d : α) (hd : d ∈ l) :
    l.getD n d ∈ l := by
  rw [List.getD_eq_getElem?_getD]
  rcases h : l[n]? with _ | a
  · exact hd
  · exact List.getElem?_mem h

theorem getD_mem_of_lt {α : Type} (l : List α) (n : Nat) (d : α)
    (h : n < l.length) : l.getD n d ∈ l := by
  rw [List.getD_eq_getElem?_getD, List.getElem?_eq_getElem h]
  exact List.getElem_mem h

theorem any_map_general {α β : Type} (f : α → β) (p : β → Bool) :
    ∀ l : List α, (l.map f).any p = l.any (fun a => p (f a))
  | [] => rfl
  | a :: l => by
    simp only [List.map_cons, List.any_cons, any_map_general f p l]

theorem eq_none_of_isSome_eq_false {α : Type} (x : Option α)
    (h : x.isSome = false) : x = none := by
  cases x with
  | none => rfl
  | some a => exact absurd h (by simp)

/-- Dropping the launch indices from the indexed failure list gives the
plain per-host failure list, whatever the starting index. -/
theorem hostErrorsIdxFrom_proj (f : String → Option String) :
    ∀ (i : Nat) (ips : List String),
      (hostErrorsIdxFrom f i ips).map (fun t => t.2) = hostErrors f ips
  | _, [] => rfl
  | i, ip :: rest => by
    cases hf : f ip with
    | some e =>
      simp only [hostErrorsIdxFrom, hostErrors, List.filterMap_cons, hf,
        Option.map_some, List.map_cons]
      rw [hostErrorsIdxFrom_proj f (i + 1) rest]
      rfl
    | none =>
      simp only [hostErrorsIdxFrom, hostErrors, List.filterMap_cons, hf,
        Option.map_none]
      exact hostErrorsIdxFrom_proj f (i + 1) rest

theorem hostErrors_eq_proj (f : String → Option String) (ips : List String) :
    hostErrors f ips = (hostErrorsIdx f ips).map (fun t => t.2) :=
  (hostErrorsIdxFrom_proj f 0 ips).symm

/-- The flag computation of the goroutine phase of `mountRootfs`: nil
iff every copy and every init outcome is nil. -/
theorem mountRootfs_ok_flag (copyRes initRes : String → Option String)
    (ips : List String) :
    (mountRootfs none copyRes initRes ips).1 = none ↔
      ∀ ip ∈ ips, copyRes ip = none ∧ initRes ip = none := by
  unfold mountRootfs
  dsimp only
  rw [any_map_general]
  have hflagiff : (ips.any fun a => (mountRootfsHostTask copyRes initRes a).2) = true ↔
      ∃ ip ∈ ips, ((copyRes ip).isSome || (initRes ip).isSome) = true := by
    rw [List.any_eq_true]
    rfl
  by_cases hb : (ips.any fun a => (mountRootfsHostTask copyRes initRes a).2) = true
  · rw [if_pos hb]
    obtain ⟨ip, hip, hflag⟩ := hflagiff.mp hb
    constructor
    · intro hc; exact Option.noConfusion hc
    · intro hall
      exfalso
      rcases (Bool.or_eq_true _ _).mp hflag with hc | hc
      · rw [(hall ip hip).1] at hc; exact Bool.noConfusion hc
      · rw [(hall ip hip).2] at hc; exact Bool.noConfusion hc
  · rw [if_neg hb]
    constructor
    · intro _ ip hip
      have hno : ((copyRes ip).isSome || (initRes ip).isSome) = false := by
        cases hc : ((copyRes ip).isSome || (initRes ip).isSome) with
        | false => rfl
        | true => exact absurd (hflagiff.mpr ⟨ip, hip, hc⟩) hb
      rcases Bool.or_eq_false_iff.mp hno with ⟨h1, h2⟩
      exact ⟨eq_none_of_isSome_eq_false _ h1, eq_none_of_isSome_eq_false _ h2⟩
    · intro _; rfl

/-- Past the SSH-readiness check, the trace of `mountRootfs` is the full
copy-then-init block of every host in launch order. -/
theorem mountRootfs_ok_trace (copyRes initRes : String → Option String)
    (ips : List String) :
    (mountRootfs none copyRes initRes ips).2 =
      (ips.map (fun ip =>
        [(ip, RootfsStep.copyRootfs), (ip, RootfsStep.initScript)])).flatten := by
  unfold mountRootfs mountRootfsHostTask
  dsimp only
  rw [List.map_map]
  rfl

/-- Every error `mountRootfs` can return is either the fixed goroutine
aggregate or the wrapped SSH-readiness timeout. -/
theorem mountRootfs_err_shape (sshReadyRes : Option String)
    (copyRes initRes : String → Option String) (ips : List String)
    (e : String) (he : (mountRootfs sshReadyRes copyRes initRes ips).1 = some e) :
    e = "mountRootfs failed" ∨
      ∃ e0, sshReadyRes = some e0 ∧
        e = "check for node ssh service time out: " ++ e0 := by
  cases sshReadyRes with
  | some e0 =>
    right
    refine ⟨e0, rfl, ?_⟩
    exact (Option.some.inj he).symm
  | none =>
    left
    unfold mountRootfs at he
    dsimp only at he
    split at he
    · exact (Option.some.inj he).symm
    · exact Option.noConfusion he

/-- C4 (amended): `concurrencyExecute` returns nil iff every per-host
task succeeds; on failure it returns the single error of the first task
to fail, carrying that task’s underlying cause but a host address read
from the shared loop range variable — an address of the batch that may
belong to a later iteration, so the error need not name the failed host
and, with k ≥ 2 failures, never names more than one address.
`mountRootfs` first waits for SSH readiness on the whole batch, failing
with the wrapped timeout error and no action attempted; past that check
it returns nil iff every copy and init step succeeds and otherwise the
one fixed error string `mountRootfs failed`, which names no host at
all. -/
theorem batch_error_semantics (sched ipLag : Nat) (sshReadyRes : Option String)
    (f copyRes initRes : String → Option String) (ips : List String) :
    (concurrencyExecute sched ipLag f ips = none ↔ hostErrors f ips = []) ∧
    (∀ a e, concurrencyExecute sched ipLag f ips = some (a, e) →
      a ∈ ips ∧ ∃ h, (h, e) ∈ hostErrors f ips) ∧
    ((mountRootfs sshReadyRes copyRes initRes ips).1 = none ↔
      (sshReadyRes = none ∧ ∀ ip ∈ ips, copyRes ip = none ∧ initRes ip = none)) ∧
    (∀ e, (mountRootfs sshReadyRes copyRes initRes ips).1 = some e →
      e = "mountRootfs failed" ∨
      ∃ e0, sshReadyRes = some e0 ∧
        e = "check for node ssh service time out: " ++ e0) := by
  refine ⟨?_, ?_, ?_, ?_⟩
  · unfold concurrencyExecute
    rw [hostErrors_eq_proj]
    cases hE : hostErrorsIdx f ips with
    | nil => simp
    | cons e es => simp
  · intro a e hp
    unfold concurrencyExecute at hp
    cases hE : hostErrorsIdx f ips with
    | nil => rw [hE] at hp; exact Option.noConfusion hp
    | cons e0 es =>
      rw [hE] at hp
      have hips : ips ≠ [] := by
        intro hnil
        rw [hnil] at hE
        exact List.noConfusion hE
      have hlen : 0 < ips.length := by
        cases ips with
        | nil => exact absurd rfl hips
        | cons x xs => exact Nat.succ_pos _
      have hpair := Option.some.inj hp
      have hchosen : (e0 :: es).getD (sched % (e0 :: es).length) e0 ∈
          hostErrorsIdx f ips := by
        rw [hE]
        exact getD_mem_of_mem (e0 :: es) _ e0 (List.mem_cons_self e0 es)
      constructor
      · rw [← ((Prod.mk.injEq _ _ _ _).mp hpair).1]
        refine getD_mem_of_lt ips _ "" ?_
        exact Nat.lt_of_le_of_lt (Nat.min_le_right _ _)
          (Nat.sub_lt hlen (Nat.succ_pos 0))
      · refine ⟨((e0 :: es).getD (sched % (e0 :: es).length) e0).2.1, ?_⟩
        rw [← ((Prod.mk.injEq _ _ _ _).mp hpair).2, hostErrors_eq_proj]
        exact List.mem_map_of_mem _ hchosen
  · cases sshReadyRes with
    | some e0 =>
      constructor
      · intro hc; exact absurd hc (by simp [mountRootfs])
      · intro hc; exact absurd hc.1 (by simp)
    | none =>
      rw [mountRootfs_ok_flag]
      simp
  · exact mountRootfs_err_shape sshReadyRes copyRes initRes ips

/-- C4 witness: concrete instantiation of `batch_error_semantics` on a
one-host batch with SSH ready. -/
theorem batch_error_semantics_witness :
    (concurrencyExecute 0 0 (fun _ => none) ["10.0.0.1"] = none ↔
      hostErrors (fun _ => none) ["10.0.0.1"] = []) ∧
    (∀ a e, concurrencyExecute 0 0 (fun _ => none) ["10.0.0.1"] = some (a, e) →
      a ∈ ["10.0.0.1"] ∧
      ∃ h, (h, e) ∈ hostErrors (fun _ => none) ["10.0.0.1"]) ∧
    ((mountRootfs none (fun _ => none) (fun _ => none) ["10.0.0.1"]).1 = none ↔
      ((none : Option String) = none ∧ ∀ ip ∈ ["10.0.0.1"],
        (fun _ => (none : Option String)) ip = none ∧
        (fun _ => (none : Option String)) ip = none)) ∧
    (∀ e, (mountRootfs none (fun _ => none) (fun _ => none)
        ["10.0.0.1"]).1 = some e →
      e = "mountRootfs failed" ∨
      ∃ e0, (none : Option String) = some e0 ∧
        e = "check for node ssh service time out: " ++ e0) :=
  batch_error_semantics 0 0 none (fun _ => none) (fun _ => none)
    (fun _ => none) ["10.0.0.1"]

/-- C4 counterexample: the error message of `concurrencyExecute`
interpolates the shared loop variable `ip`, not the per-iteration copy
the task ran against.  With only `10.0.0.1` failing, a scheduling in
which the loop has advanced one iteration before the goroutine reads
`ip` makes the single returned error name `10.0.0.2` — a host whose
task succeeded — with `10.0.0.1`’s cause; and with both hosts failing
the single error names at most one address.  The single returned error
therefore does not identify exactly the k failed hosts with their
addresses. -/
theorem batch_error_misnames_failed_host :
    hostErrors (fun h => if h == "10.0.0.1" then some "dial tcp: timeout" else none)
        ["10.0.0.1", "10.0.0.2"] = [("10.0.0.1", "dial tcp: timeout")] ∧
    (fun h => if h == "10.0.0.1" then some "dial tcp: timeout" else none)
        "10.0.0.2" = none ∧
    concurrencyExecute 0 1
        (fun h => if h == "10.0.0.1" then some "dial tcp: timeout" else none)
        ["10.0.0.1", "10.0.0.2"] = some ("10.0.0.2", "dial tcp: timeout") ∧
    concurrencyExecute 0 0 (fun _ => some "boom") ["10.0.0.1", "10.0.0.2"] =
      some ("10.0.0.1", "boom") ∧
    "10.0.0.2" ∉ (concurrencyExecute 0 0 (fun _ => some "boom")
        ["10.0.0.1", "10.0.0.2"]).toList.map Prod.fst := by
  refine ⟨by decide, by decide, by decide, by decide, by decide⟩

/-- C5 counterexample: with SSH ready on the batch, the copy step fails
on the first host, yet the remote init command is still attempted on
that very host, and the returned aggregate error is the generic
`mountRootfs failed` — the copy-failed host is neither skipped nor
named. -/
theorem mountRootfs_init_attempted_after_copy_failure :
    (fun h => if h == "10.0.0.1" then some "scp: no route to host" else none)
        "10.0.0.1" = some "scp: no route to host" ∧
    ("10.0.0.1", RootfsStep.initScript) ∈
      (mountRootfs none
        (fun h => if h == "10.0.0.1" then some "scp: no route to host" else none)
        (fun _ => none) ["10.0.0.1", "10.0.0.2"]).2 ∧
    (mountRootfs none
        (fun h => if h == "10.0.0.1" then some "scp: no route to host" else none)
        (fun _ => none) ["10.0.0.1", "10.0.0.2"]).1 = some "mountRootfs failed" := by
  refine ⟨by decide, by decide, by decide⟩

/-- C5 (amended): `mountRootfs` first waits for SSH readiness on every
host of the batch; if that check fails it returns the wrapped error
`check for node ssh service time out: …` with no copy or init attempted
on any host.  Past that check, the per-host goroutine runs the copy step
and then always attempts the remote init command — also on hosts whose
copy failed, which are not excluded from the rest of the batch; each
failure only sets a shared flag, and the one returned error of the
goroutine phase is the fixed string `mountRootfs failed`, which
identifies no host. -/
theorem mountRootfs_attempts_init_on_all_hosts (sshReadyRes : Option String)
    (copyRes initRes : String → Option String) (ips : List String) :
    ((mountRootfs none copyRes initRes ips).2 =
      (ips.map (fun ip =>
        [(ip, RootfsStep.copyRootfs), (ip, RootfsStep.initScript)])).flatten) ∧
    (∀ ip ∈ ips, (ip, RootfsStep.initScript) ∈
      (mountRootfs none copyRes initRes ips).2) ∧
    (∀ e0, mountRootfs (some e0) copyRes initRes ips =
      (some ("check for node ssh service time out: " ++ e0), [])) ∧
    (∀ e, (mountRootfs sshReadyRes copyRes initRes ips).1 = some e →
      e = "mountRootfs failed" ∨
      ∃ e0, sshReadyRes = some e0 ∧
        e = "check for node ssh service time out: " ++ e0) := by
  refine ⟨mountRootfs_ok_trace copyRes initRes ips, ?_, fun e0 => rfl,
    mountRootfs_err_shape sshReadyRes copyRes initRes ips⟩
  intro ip hip
  rw [mountRootfs_ok_trace copyRes initRes ips]
  rw [List.mem_flatten]
  refine ⟨[(ip, RootfsStep.copyRootfs), (ip, RootfsStep.initScript)], ?_, ?_⟩
  · exact List.mem_map_of_mem _ hip
  · simp

/-- C5 witness: concrete instantiation of
`mountRootfs_attempts_init_on_all_hosts` on a one-host batch. -/
theorem mountRootfs_attempts_init_on_all_hosts_witness :
    ((mountRootfs none (fun _ => some "copy failed") (fun _ => none)
        ["10.0.0.1"]).2 =
      (["10.0.0.1"].map (fun ip =>
        [(ip, RootfsStep.copyRootfs), (ip, RootfsStep.initScript)])).flatten) ∧
    (∀ ip ∈ ["10.0.0.1"], (ip, RootfsStep.initScript) ∈
      (mountRootfs none (fun _ => some "copy failed") (fun _ => none)
        ["10.0.0.1"]).2) ∧
    (∀ e0, mountRootfs (some e0) (fun _ => some "copy failed") (fun _ => none)
        ["10.0.0.1"] =
      (some ("check for node ssh service time out: " ++ e0), [])) ∧
    (∀ e, (mountRootfs none (fun _ => some "copy failed") (fun _ => none)
        ["10.0.0.1"]).1 = some e →
      e = "mountRootfs failed" ∨
      ∃ e0, (none : Option String) = some e0 ∧
        e = "check for node ssh service time out: " ++ e0) :=
  mountRootfs_attempts_init_on_all_hosts none
    (fun _ => some "copy failed") (fun _ => none) ["10.0.0.1"]

/-! ### C6: upgrade ordering -/

theorem tierEvents_cons (ip : String) (l : List String) :
    tierEvents (ip :: l) = upgradeHostEvents ip ++ tierEvents l := by
  simp [tierEvents]

theorem tierEvents_append (l1 l2 : List String) :
    tierEvents (l1 ++ l2) = tierEvents l1 ++ tierEvents l2 := by
  simp [tierEvents]

theorem upgradeHostEvents_host (ip : String) :
    ∀ e ∈ upgradeHostEvents ip, e.1 = ip := by
  intro e he
  rw [upgradeHostEvents, List.mem_map] at he
  obtain ⟨c, _, rfl⟩ := he
  rfl

theorem mem_tierEvents_host (e : String × K0sCmd) (l : List String)
    (h : e ∈ tierEvents l) : e.1 ∈ l := by
  rw [tierEvents, List.mem_flatten] at h
  obtain ⟨blk, hblk, he⟩ := h
  rw [List.mem_map] at hblk
  obtain ⟨ip, hip, rfl⟩ := hblk
  rw [upgradeHostEvents_host ip e he]
  exact hip

theorem upgradeTier_trace (sshRes cmdRes : String → Option String) :
    ∀ ips : List String, ∃ n, n ≤ ips.length ∧
      (upgradeTier sshRes cmdRes ips).2 = tierEvents (ips.take n)
  | [] => ⟨0, Nat.le_refl 0, rfl⟩
  | ip :: rest => by
    cases hssh : sshRes ip with
    | some e =>
      refine ⟨0, Nat.zero_le _, ?_⟩
      rw [upgradeTier, hssh]
      rfl
    | none =>
      cases hcmd : cmdRes ip with
      | some e =>
        refine ⟨1, by simp, ?_⟩
        rw [upgradeTier, hssh, hcmd]
        show upgradeHostEvents ip = tierEvents (List.take 1 (ip :: rest))
        rw [List.take_succ_cons, List.take_zero, tierEvents_cons]
        simp [tierEvents]
      | none =>
        obtain ⟨n, hn, htr⟩ := upgradeTier_trace sshRes cmdRes rest
        refine ⟨n + 1, by simpa using hn, ?_⟩
        rw [upgradeTier, hssh, hcmd]
        show upgradeHostEvents ip ++ (upgradeTier sshRes cmdRes rest).2 =
          tierEvents (List.take (n + 1) (ip :: rest))
        rw [htr, List.take_succ_cons, tierEvents_cons]

theorem upgradeTier_trace_ok (sshRes cmdRes : String → Option String) :
    ∀ ips : List String, (upgradeTier sshRes cmdRes ips).1 = none →
      (upgradeTier sshRes cmdRes ips).2 = tierEvents ips
  | [] => fun _ => rfl
  | ip :: rest => by
    intro h
    cases hssh : sshRes ip with
    | some e =>
      exfalso
      have hx : (upgradeTier sshRes cmdRes (ip :: rest)).1 =
          some ("failed to get ssh client: " ++ e) := by
        rw [upgradeTier, hssh]
      rw [hx] at h
      exact Option.noConfusion h
    | none =>
      cases hcmd : cmdRes ip with
      | some e =>
        exfalso
        have hx : (upgradeTier sshRes cmdRes (ip :: rest)).1 = some e := by
          rw [upgradeTier, hssh, hcmd]
        rw [hx] at h
        exact Option.noConfusion h
      | none =>
        have h1 : (upgradeTier sshRes cmdRes (ip :: rest)).1 =
            (upgradeTier sshRes cmdRes rest).1 := by
          rw [upgradeTier, hssh, hcmd]
        have h2 : (upgradeTier sshRes cmdRes (ip :: rest)).2 =
            upgradeHostEvents ip ++ (upgradeTier sshRes cmdRes rest).2 := by
          rw [upgradeTier, hssh, hcmd]
        rw [h1] at h
        rw [h2, tierEvents_cons, upgradeTier_trace_ok sshRes cmdRes rest h]

theorem upgrade_r0_err (sshRes cmdRes : String → Option String)
    (masters workers : List String) (e : String)
    (hr0 : (upgradeTier sshRes cmdRes (masters.take 1)).1 = some e) :
    upgrade sshRes cmdRes masters workers =
      (some e, (upgradeTier sshRes cmdRes (masters.take 1)).2) := by
  simp only [upgrade]
  rw [hr0]

theorem upgrade_r1_err (sshRes cmdRes : String → Option String)
    (masters workers : List String) (e : String)
    (hr0 : (upgradeTier sshRes cmdRes (masters.take 1)).1 = none)
    (hr1 : (upgradeTier sshRes cmdRes (masters.drop 1)).1 = some e) :
    upgrade sshRes cmdRes masters workers =
      (some e, (upgradeTier sshRes cmdRes (masters.take 1)).2 ++
        (upgradeTier sshRes cmdRes (masters.drop 1)).2) := by
  simp only [upgrade]
  rw [hr0, hr1]

theorem upgrade_tiers_ok (sshRes cmdRes : String → Option String)
    (masters workers : List String)
    (hr0 : (upgradeTier sshRes cmdRes (masters.take 1)).1 = none)
    (hr1 : (upgradeTier sshRes cmdRes (masters.drop 1)).1 = none) :
    upgrade sshRes cmdRes masters workers =
      ((upgradeTier sshRes cmdRes workers).1,
        (upgradeTier sshRes cmdRes (masters.take 1)).2 ++
        (upgradeTier sshRes cmdRes (masters.drop 1)).2 ++
        (upgradeTier sshRes cmdRes workers).2) := by
  simp only [upgrade]
  rw [hr0, hr1]

theorem upgrade_trace_structure (sshRes cmdRes : String → Option String)
    (masters workers : List String) :
    ∃ n, upgradeTrace sshRes cmdRes masters workers =
      tierEvents ((masters ++ workers).take n) := by
  have htk : ∀ n, n ≤ masters.length →
      (masters ++ workers).take n = masters.take n := by
    intro n hle
    rw [List.take_append_eq_append_take, Nat.sub_eq_zero_of_le hle,
      List.take_zero, List.append_nil]
  obtain ⟨n0, hn0, h0⟩ := upgradeTier_trace sshRes cmdRes (masters.take 1)
  have hn01 : n0 ≤ 1 := Nat.le_trans hn0 (by
    rw [List.length_take]
    exact Nat.min_le_left 1 masters.length)
  have hn0m : n0 ≤ masters.length := Nat.le_trans hn0 (by
    rw [List.length_take]
    exact Nat.min_le_right 1 masters.length)
  cases hr0 : (upgradeTier sshRes cmdRes (masters.take 1)).1 with
  | some e =>
    refine ⟨n0, ?_⟩
    rw [upgradeTrace, upgrade_r0_err sshRes cmdRes masters workers e hr0]
    dsimp only
    rw [h0, List.take_take, Nat.min_eq_left hn01, htk n0 hn0m]
  | none =>
    have h0full : (upgradeTier sshRes cmdRes (masters.take 1)).2 =
        tierEvents (masters.take 1) :=
      upgradeTier_trace_ok sshRes cmdRes (masters.take 1) hr0
    obtain ⟨n1, hn1, h1⟩ := upgradeTier_trace sshRes cmdRes (masters.drop 1)
    cases hr1 : (upgradeTier sshRes cmdRes (masters.drop 1)).1 with
    | some e =>
      refine ⟨1 + n1, ?_⟩
      rw [upgradeTrace, upgrade_r1_err sshRes cmdRes masters workers e hr0 hr1]
      dsimp only
      rw [h0full, h1, ← tierEvents_append, ← List.take_add]
      cases masters with
      | nil =>
        exfalso
        have hx : (upgradeTier sshRes cmdRes (List.drop 1 ([] : List String))).1 =
            none := rfl
        rw [hx] at hr1
        exact Option.noConfusion hr1
      | cons m ms =>
        have hb : 1 + n1 ≤ (m :: ms).length := by
          have hms : n1 ≤ ms.length := by simpa using hn1
          simp only [List.length_cons]
          omega
        rw [htk (1 + n1) hb]
    | none =>
      have h1full : (upgradeTier sshRes cmdRes (masters.drop 1)).2 =
          tierEvents (masters.drop 1) :=
        upgradeTier_trace_ok sshRes cmdRes (masters.drop 1) hr1
      obtain ⟨n2, hn2, h2⟩ := upgradeTier_trace sshRes cmdRes workers
      refine ⟨masters.length + n2, ?_⟩
      rw [upgradeTrace, upgrade_tiers_ok sshRes cmdRes masters workers hr0 hr1]
      dsimp only
      have hrhs : (masters ++ workers).take (masters.length + n2) =
          masters ++ workers.take n2 := by
        rw [List.take_append_eq_append_take,
          List.take_of_length_le (Nat.le_add_right _ _), Nat.add_sub_cancel_left]
      rw [h0full, h1full, h2, ← tierEvents_append, ← tierEvents_append,
        List.take_append_drop, hrhs]

theorem append_pred_precedes {α : Type} (t1 t2 : List α) (P : α → Prop)
    (h1 : ∀ e ∈ t1, P e) (h2 : ∀ e ∈ t2, ¬ P e) (i j : Nat)
    (hi : i < (t1 ++ t2).length) (hj : j < (t1 ++ t2).length)
    (hPi : P ((t1 ++ t2).get ⟨i, hi⟩)) (hPj : ¬ P ((t1 ++ t2).get ⟨j, hj⟩)) :
    i < j := by
  have hi1 : i < t1.length := by
    by_contra hcon
    push_neg at hcon
    rw [List.get_eq_getElem, List.getElem_append_right hcon] at hPi
    exact h2 _ (List.getElem_mem _) hPi
  have hj1 : t1.length ≤ j := by
    by_contra hcon
    push_neg at hcon
    rw [List.get_eq_getElem, List.getElem_append_left hcon] at hPj
    exact hPj (h1 _ (List.getElem_mem _))
  exact Nat.lt_of_lt_of_le hi1 hj1

theorem pred_precedes_of_eq {α : Type} (tr t1 t2 : List α) (P : α → Prop)
    (heq : tr = t1 ++ t2) (h1 : ∀ e ∈ t1, P e) (h2 : ∀ e ∈ t2, ¬ P e)
    (i j : Nat) (hi : i < tr.length) (hj : j < tr.length)
    (hPi : P (tr.get ⟨i, hi⟩)) (hPj : ¬ P (tr.get ⟨j, hj⟩)) : i < j := by
  subst heq
  exact append_pred_precedes t1 t2 P h1 h2 i j hi hj hPi hPj

/-- C6 counterexample: on a one-master cluster the per-host transition
issued by the upgrade is chmod, replace binary (`mv` to /usr/bin), stop
service, start service — the binary replacement strictly precedes the
service stop, contrary to the claim that each host transition is stop
service, replace binary, start service. -/
theorem upgrade_replaces_binary_before_stop :
    (upgrade (fun _ => none) (fun _ => none) ["192.168.0.2"] []).2 =
      [("192.168.0.2", K0sCmd.chmodBin), ("192.168.0.2", K0sCmd.moveBinary),
       ("192.168.0.2", K0sCmd.stopService), ("192.168.0.2", K0sCmd.startService)] ∧
    ((upgrade (fun _ => none) (fun _ => none) ["192.168.0.2"] []).2).indexOf
        ("192.168.0.2", K0sCmd.moveBinary) <
      ((upgrade (fun _ => none) (fun _ => none) ["192.168.0.2"] []).2).indexOf
        ("192.168.0.2", K0sCmd.stopService) := by
  refine ⟨by decide, by decide⟩

/-- C6 (amended): for every cluster with masters `m0 :: rest` and worker
list `workers` (all host addresses distinct across roles), the sequence
of per-host command blocks observed during `upgrade` is a prefix of the
host order `m0 :: rest ++ workers` expanded host by host: every event of
master-zero strictly precedes every event of any other host, every
master event strictly precedes every worker event, hosts within a tier
are processed one at a time in list order, and each host transition is
chmod, replace binary, stop service, start service (the replacement
precedes the stop, not the reverse as the claim stated). -/
theorem upgrade_ordering (sshRes cmdRes : String → Option String)
    (m0 : String) (rest workers : List String)
    (hm : m0 ∉ rest ++ workers)
    (hd : ∀ w ∈ workers, w ∉ m0 :: rest) :
    (∃ n, upgradeTrace sshRes cmdRes (m0 :: rest) workers =
      tierEvents (((m0 :: rest) ++ workers).take n)) ∧
    (∀ i j (hi : i < (upgradeTrace sshRes cmdRes (m0 :: rest) workers).length)
        (hj : j < (upgradeTrace sshRes cmdRes (m0 :: rest) workers).length),
      ((upgradeTrace sshRes cmdRes (m0 :: rest) workers).get ⟨i, hi⟩).1 = m0 →
      ((upgradeTrace sshRes cmdRes (m0 :: rest) workers).get ⟨j, hj⟩).1 ≠ m0 →
      i < j) ∧
    (∀ i j (hi : i < (upgradeTrace sshRes cmdRes (m0 :: rest) workers).length)
        (hj : j < (upgradeTrace sshRes cmdRes (m0 :: rest) workers).length),
      ((upgradeTrace sshRes cmdRes (m0 :: rest) workers).get ⟨i, hi⟩).1 ∈ m0 :: rest →
      ((upgradeTrace sshRes cmdRes (m0 :: rest) workers).get ⟨j, hj⟩).1 ∈ workers →
      i < j) ∧
    (∀ ip, upgradeHostEvents ip =
      [(ip, K0sCmd.chmodBin), (ip, K0sCmd.moveBinary),
       (ip, K0sCmd.stopService), (ip, K0sCmd.startService)]) := by
  obtain ⟨n, htr⟩ := upgrade_trace_structure sshRes cmdRes (m0 :: rest) workers
  refine ⟨⟨n, htr⟩, ?_, ?_, fun ip => rfl⟩
  · intro i j hi hj hPi hPj
    cases n with
    | zero =>
      exfalso
      rw [htr] at hi
      simp [tierEvents] at hi
    | succ k =>
      have heq : upgradeTrace sshRes cmdRes (m0 :: rest) workers =
          upgradeHostEvents m0 ++ tierEvents ((rest ++ workers).take k) := by
        rw [htr]
        show tierEvents (List.take (k + 1) (m0 :: (rest ++ workers))) = _
        rw [List.take_succ_cons, tierEvents_cons]
      refine pred_precedes_of_eq _ _ _ (fun e => e.1 = m0) heq
        (upgradeHostEvents_host m0) ?_ i j hi hj hPi hPj
      intro e he hPe
      refine hm ?_
      have hmem := mem_tierEvents_host e _ he
      rw [hPe] at hmem
      exact List.take_subset _ _ hmem
  · intro i j hi hj hPi hPj
    have heq : upgradeTrace sshRes cmdRes (m0 :: rest) workers =
        tierEvents ((m0 :: rest).take n) ++
          tierEvents (workers.take (n - (m0 :: rest).length)) := by
      rw [htr, List.take_append_eq_append_take, tierEvents_append]
    refine pred_precedes_of_eq _ _ _ (fun e => e.1 ∈ m0 :: rest) heq
      ?_ ?_ i j hi hj hPi (hd _ hPj)
    · intro e he
      exact List.take_subset _ _ (mem_tierEvents_host e _ he)
    · intro e he hPe
      exact hd e.1 (List.take_subset _ _ (mem_tierEvents_host e _ he)) hPe

/-- C6 witness: concrete instantiation of `upgrade_ordering` on masters
`[m0, m1]` and one worker. -/
theorem upgrade_ordering_witness :
    (∃ n, upgradeTrace (fun _ => none) (fun _ => none)
        ("192.168.0.2" :: ["192.168.0.3"]) ["192.168.0.4"] =
      tierEvents ((("192.168.0.2" :: ["192.168.0.3"]) ++ ["192.168.0.4"]).take n)) ∧
    (∀ i j (hi : i < (upgradeTrace (fun _ => none) (fun _ => none)
          ("192.168.0.2" :: ["192.168.0.3"]) ["192.168.0.4"]).length)
        (hj : j < (upgradeTrace (fun _ => none) (fun _ => none)
          ("192.168.0.2" :: ["192.168.0.3"]) ["192.168.0.4"]).length),
      ((upgradeTrace (fun _ => none) (fun _ => none)
          ("192.168.0.2" :: ["192.168.0.3"]) ["192.168.0.4"]).get ⟨i, hi⟩).1 =
        "192.168.0.2" →
      ((upgradeTrace (fun _ => none) (fun _ => none)
          ("192.168.0.2" :: ["192.168.0.3"]) ["192.168.0.4"]).get ⟨j, hj⟩).1 ≠
        "192.168.0.2" →
      i < j) ∧
    (∀ i j (hi : i < (upgradeTrace (fun _ => none) (fun _ => none)
          ("192.168.0.2" :: ["192.168.0.3"]) ["192.168.0.4"]).length)
        (hj : j < (upgradeTrace (fun _ => none) (fun _ => none)
          ("192.168.0.2" :: ["192.168.0.3"]) ["192.168.0.4"]).length),
      ((upgradeTrace (fun _ => none) (fun _ => none)
          ("192.168.0.2" :: ["192.168.0.3"]) ["192.168.0.4"]).get ⟨i, hi⟩).1 ∈
        "192.168.0.2" :: ["192.168.0.3"] →
      ((upgradeTrace (fun _ => none) (fun _ => none)
          ("192.168.0.2" :: ["192.168.0.3"]) ["192.168.0.4"]).get ⟨j, hj⟩).1 ∈
        ["192.168.0.4"] →
      i < j) ∧
    (∀ ip, upgradeHostEvents ip =
      [(ip, K0sCmd.chmodBin), (ip, K0sCmd.moveBinary),
       (ip, K0sCmd.stopService), (ip, K0sCmd.startService)]) :=
  upgrade_ordering (fun _ => none) (fun _ => none)
    "192.168.0.2" ["192.168.0.3"] ["192.168.0.4"] (by decide) (by decide)

/-! ### C7: ScaleUp configures joined workers with the updated master
list and the VIP join endpoint -/

theorem joinNodes_installs (sched : Nat) (vip : String)
    (initKubeRes : Option String) (perNodeRes : String → Option String)
    (newNodes masters : List String)
    (hok : (joinNodes sched vip initKubeRes perNodeRes newNodes masters).1 = none) :
    ((joinNodes sched vip initKubeRes perNodeRes newNodes masters).2.map
        Prod.fst = newNodes) ∧
    (∀ w cfg, (w, cfg) ∈
        (joinNodes sched vip initKubeRes perNodeRes newNodes masters).2 →
      cfg = nodeJoinConfigFor vip masters) := by
  unfold joinNodes at hok ⊢
  by_cases hw : newNodes.isEmpty
  · rw [if_pos hw]
    constructor
    · rw [List.isEmpty_iff.mp hw]
      rfl
    · intro w cfg hmem
      exact absurd hmem (List.not_mem_nil _)
  · rw [if_neg hw] at hok ⊢
    cases initKubeRes with
    | some e => exact absurd hok (by simp)
    | none =>
      constructor
      · rw [List.map_map]
        have hcomp : (Prod.fst ∘ fun n : String =>
            (n, nodeJoinConfigFor vip masters)) = id := rfl
        rw [hcomp, List.map_id]
      · intro w cfg hmem
        rw [List.mem_map] at hmem
        obtain ⟨n, _, heq⟩ := hmem
        exact ((Prod.mk.injEq _ _ _ _).mp heq).2.symm

/-- C7: for every successful ScaleUp, every worker joined during the
operation is configured with the inventory master list (per the spec the
infradriver inventory already holds the post-scale master list, new
masters included, when ScaleUp runs): the ipvs real-server flags and the
lvscare static-pod backend list both equal that master list — hence set
equality with the post-scale masters — and the join endpoint written
into the worker's kubeadm discovery configuration is the virtual IP with
port 6443, not any individual master address. -/
theorem scaleUp_workers_get_updated_backends (sched : Nat) (vip : String)
    (masters : List String)
    (loadCfgRes tokenRes joinMastersRes initKubeRes : Option String)
    (perNodeRes : String → Option String) (newWorkers : List String)
    (hok : (ScaleUp sched vip masters loadCfgRes tokenRes joinMastersRes
      initKubeRes perNodeRes newWorkers).1 = none) :
    ((ScaleUp sched vip masters loadCfgRes tokenRes joinMastersRes
        initKubeRes perNodeRes newWorkers).2.map Prod.fst = newWorkers) ∧
    (∀ w cfg, (w, cfg) ∈ (ScaleUp sched vip masters loadCfgRes tokenRes
        joinMastersRes initKubeRes perNodeRes newWorkers).2 →
      cfg.lvscareBackends = masters ∧
      (∀ m, m ∈ cfg.lvscareBackends ↔ m ∈ masters) ∧
      cfg.ipvsRealServers =
        masters.map (fun m => "--rs " ++ joinHostPort m "6443") ∧
      cfg.joinEndpoint = joinHostPort vip "6443") := by
  cases loadCfgRes with
  | some e => exact absurd hok (by simp [ScaleUp])
  | none =>
  cases tokenRes with
  | some e => exact absurd hok (by simp [ScaleUp])
  | none =>
  cases joinMastersRes with
  | some e => exact absurd hok (by simp [ScaleUp])
  | none =>
  replace hok : (joinNodes sched vip initKubeRes perNodeRes newWorkers
      masters).1 = none := hok
  obtain ⟨hmap, hcfg⟩ := joinNodes_installs sched vip initKubeRes perNodeRes
    newWorkers masters hok
  refine ⟨hmap, ?_⟩
  intro w cfg hmem
  have hc := hcfg w cfg hmem
  subst hc
  exact ⟨rfl, fun m => Iff.rfl, rfl, rfl⟩

/-- C7 witness: concrete successful ScaleUp joining one worker against
the two-master inventory. -/
theorem scaleUp_workers_get_updated_backends_witness :
    ((ScaleUp 0 "10.103.97.2" ["192.168.0.2", "192.168.0.3"] none none none
        none (fun _ => none) ["192.168.0.4"]).2.map Prod.fst =
      ["192.168.0.4"]) ∧
    (∀ w cfg, (w, cfg) ∈ (ScaleUp 0 "10.103.97.2"
        ["192.168.0.2", "192.168.0.3"] none none none none
        (fun _ => none) ["192.168.0.4"]).2 →
      cfg.lvscareBackends = ["192.168.0.2", "192.168.0.3"] ∧
      (∀ m, m ∈ cfg.lvscareBackends ↔ m ∈ ["192.168.0.2", "192.168.0.3"]) ∧
      cfg.ipvsRealServers =
        ["192.168.0.2", "192.168.0.3"].map
          (fun m => "--rs " ++ joinHostPort m "6443") ∧
      cfg.joinEndpoint = joinHostPort "10.103.97.2" "6443") :=
  scaleUp_workers_get_updated_backends 0 "10.103.97.2"
    ["192.168.0.2", "192.168.0.3"] none none none none
    (fun _ => none) ["192.168.0.4"] (by decide)

/-! ### C9: ConstructClusterForScaleUp and partial state on failure -/

theorem scaleUpStage_cases (role : String) (existingIPs : List String)
    (c : V2Cluster) (scaleFlagSSH clusterSSH : SSHCfg) (joinIPs : List String) :
    ((scaleUpStage role existingIPs c scaleFlagSSH clusterSSH joinIPs).1 = none →
      (scaleUpStage role existingIPs c scaleFlagSSH clusterSSH joinIPs).2.Spec.Hosts =
        c.Spec.Hosts ++ (if joinIPs.isEmpty then [] else
          [constructHost role joinIPs scaleFlagSSH clusterSSH])) ∧
    (∀ e, (scaleUpStage role existingIPs c scaleFlagSSH clusterSSH joinIPs).1 =
        some e →
      (scaleUpStage role existingIPs c scaleFlagSSH clusterSSH joinIPs).2 = c) ∧
    ((scaleUpStage role existingIPs c scaleFlagSSH clusterSSH joinIPs).2.Spec.Env =
      c.Spec.Env) := by
  unfold scaleUpStage
  by_cases hje : joinIPs.isEmpty
  · rw [if_pos hje, if_pos hje]
    exact ⟨fun _ => (List.append_nil _).symm, fun e he => Option.noConfusion he,
      rfl⟩
  · rw [if_neg hje, if_neg hje]
    cases hf : joinIPs.find? (fun ip => isInIPList ip existingIPs) with
    | some ip =>
      refine ⟨fun hc => Option.noConfusion hc, fun e _ => rfl, rfl⟩
    | none =>
      exact ⟨fun _ => rfl, fun e he => Option.noConfusion he, rfl⟩

/-- C9 counterexample: a scale-up request whose worker list duplicates
an existing worker IP fails validation, yet the cluster value after the
call differs from the one before it: the custom env entry and the new
master host entry have already been added when the error is returned. -/
theorem constructClusterForScaleUp_leaves_partial_state :
    (ConstructClusterForScaleUp scaleUpExampleCluster ["FOO=1"] emptySSH
        ["3.3.3.3"] ["2.2.2.2"]).1 =
      some "failed to scale node for duplicated ip: 2.2.2.2" ∧
    (ConstructClusterForScaleUp scaleUpExampleCluster ["FOO=1"] emptySSH
        ["3.3.3.3"] ["2.2.2.2"]).2.Spec.Hosts ≠
      scaleUpExampleCluster.Spec.Hosts ∧
    (ConstructClusterForScaleUp scaleUpExampleCluster ["FOO=1"] emptySSH
        ["3.3.3.3"] ["2.2.2.2"]).2.Spec.Env ≠
      scaleUpExampleCluster.Spec.Env := by
  refine ⟨by decide, by decide, by decide⟩

/-- C9 (amended): `ConstructClusterForScaleUp` appends the custom env
entries to the cluster before any validation, so they remain even when
the call returns a duplicate-IP error; a failure in the worker stage
additionally leaves the already-appended master host entry in place.  On
failure the host inventory is therefore either untouched (master-stage
failure) or extended by exactly the new master entry (worker-stage
failure); only on success are the requested master and worker entries
both appended. -/
theorem constructClusterForScaleUp_state (cluster : V2Cluster)
    (customEnv : List String) (scaleFlagSSH : SSHCfg)
    (joinMasters joinWorkers : List String) :
    ((ConstructClusterForScaleUp cluster customEnv scaleFlagSSH joinMasters
        joinWorkers).2.Spec.Env = cluster.Spec.Env ++ customEnv) ∧
    (∀ e, (ConstructClusterForScaleUp cluster customEnv scaleFlagSSH
        joinMasters joinWorkers).1 = some e →
      (ConstructClusterForScaleUp cluster customEnv scaleFlagSSH joinMasters
          joinWorkers).2.Spec.Hosts = cluster.Spec.Hosts ∨
      (ConstructClusterForScaleUp cluster customEnv scaleFlagSSH joinMasters
          joinWorkers).2.Spec.Hosts = cluster.Spec.Hosts ++
        [constructHost MASTER joinMasters scaleFlagSSH cluster.Spec.SSH]) ∧
    ((ConstructClusterForScaleUp cluster customEnv scaleFlagSSH joinMasters
        joinWorkers).1 = none →
      (ConstructClusterForScaleUp cluster customEnv scaleFlagSSH joinMasters
          joinWorkers).2.Spec.Hosts = cluster.Spec.Hosts ++
        (if joinMasters.isEmpty then [] else
          [constructHost MASTER joinMasters scaleFlagSSH cluster.Spec.SSH]) ++
        (if joinWorkers.isEmpty then [] else
          [constructHost NODE joinWorkers scaleFlagSSH cluster.Spec.SSH])) := by
  simp only [ConstructClusterForScaleUp]
  set c1 : V2Cluster :=
    { Spec := { cluster.Spec with Env := cluster.Spec.Env ++ customEnv } } with hc1
  have hc1hosts : c1.Spec.Hosts = cluster.Spec.Hosts := rfl
  have hc1env : c1.Spec.Env = cluster.Spec.Env ++ customEnv := rfl
  have hc1ssh : cluster.Spec.SSH = cluster.Spec.SSH := rfl
  obtain ⟨hok1, herr1, henv1⟩ := scaleUpStage_cases MASTER (GetMasterIPList c1)
    c1 scaleFlagSSH cluster.Spec.SSH joinMasters
  cases hm1 : (scaleUpStage MASTER (GetMasterIPList c1) c1 scaleFlagSSH
      cluster.Spec.SSH joinMasters).1 with
  | some e =>
    have h2 := herr1 e hm1
    refine ⟨?_, ?_, ?_⟩
    · rw [h2]
    · intro e2 _
      left
      rw [h2]
    · intro hcon
      exact absurd hcon (by simp)
  | none =>
    have hmhosts := hok1 hm1
    obtain ⟨hok2, herr2, henv2⟩ := scaleUpStage_cases NODE
      (GetNodeIPList (scaleUpStage MASTER (GetMasterIPList c1) c1 scaleFlagSSH
        cluster.Spec.SSH joinMasters).2)
      (scaleUpStage MASTER (GetMasterIPList c1) c1 scaleFlagSSH
        cluster.Spec.SSH joinMasters).2
      scaleFlagSSH cluster.Spec.SSH joinWorkers
    refine ⟨?_, ?_, ?_⟩
    · rw [henv2, henv1]
    · intro e2 he2
      have h3 := herr2 e2 he2
      rw [h3, hmhosts, hc1hosts]
      by_cases hje : joinMasters.isEmpty
      · left
        rw [if_pos hje, List.append_nil]
      · right
        rw [if_neg hje]
    · intro hok
      rw [hok2 hok, hmhosts, hc1hosts]

/-- C9 witness: on the concrete cluster, a successful request appends
exactly the new master and worker entries after the env extension. -/
theorem constructClusterForScaleUp_state_witness :
    ((ConstructClusterForScaleUp scaleUpExampleCluster ["FOO=1"] emptySSH
        ["3.3.3.3"] ["4.4.4.4"]).2.Spec.Env =
      scaleUpExampleCluster.Spec.Env ++ ["FOO=1"]) ∧
    (∀ e, (ConstructClusterForScaleUp scaleUpExampleCluster ["FOO=1"] emptySSH
        ["3.3.3.3"] ["4.4.4.4"]).1 = some e →
      (ConstructClusterForScaleUp scaleUpExampleCluster ["FOO=1"] emptySSH
          ["3.3.3.3"] ["4.4.4.4"]).2.Spec.Hosts =
        scaleUpExampleCluster.Spec.Hosts ∨
      (ConstructClusterForScaleUp scaleUpExampleCluster ["FOO=1"] emptySSH
          ["3.3.3.3"] ["4.4.4.4"]).2.Spec.Hosts =
        scaleUpExampleCluster.Spec.Hosts ++
          [constructHost MASTER ["3.3.3.3"] emptySSH
            scaleUpExampleCluster.Spec.SSH]) ∧
    ((ConstructClusterForScaleUp scaleUpExampleCluster ["FOO=1"] emptySSH
        ["3.3.3.3"] ["4.4.4.4"]).1 = none →
      (ConstructClusterForScaleUp scaleUpExampleCluster ["FOO=1"] emptySSH
          ["3.3.3.3"] ["4.4.4.4"]).2.Spec.Hosts =
        scaleUpExampleCluster.Spec.Hosts ++
        (if (["3.3.3.3"] : List String).isEmpty then [] else
          [constructHost MASTER ["3.3.3.3"] emptySSH
            scaleUpExampleCluster.Spec.SSH]) ++
        (if (["4.4.4.4"] : List String).isEmpty then [] else
          [constructHost NODE ["4.4.4.4"] emptySSH
            scaleUpExampleCluster.Spec.SSH])) :=
  constructClusterForScaleUp_state scaleUpExampleCluster ["FOO=1"] emptySSH
    ["3.3.3.3"] ["4.4.4.4"]

/-! ### C10: ConstructClusterForScaleDown invariants -/

theorem contains_eq_true_iff (l : List String) (a : String) :
    l.contains a = true ↔ a ∈ l :=
  ⟨fun h => List.mem_of_elem_eq_true h, fun h => List.elem_eq_true_of_mem h⟩

theorem mem_removeIPList (ip : String) (l del : List String)
    (h : ip ∈ removeIPList l del) : ip ∈ l ∧ ip ∉ del := by
  unfold removeIPList at h
  have hf := List.mem_filter.mp h
  refine ⟨hf.1, ?_⟩
  intro hdel
  have hc : isInIPList ip del = true :=
    (contains_eq_true_iff del ip).mpr hdel
  rw [Bool.not_eq_eq_eq_not] at hf
  rw [hc] at hf
  exact Bool.noConfusion hf.2

theorem removeIPList_sublist (l del : List String) :
    List.Sublist (removeIPList l del) l :=
  List.filter_sublist l

theorem roleStrip_roles_ssh (role : String) (del : List String) (h : V2Host) :
    (roleStrip role del h).Roles = h.Roles ∧ (roleStrip role del h).SSH = h.SSH := by
  unfold roleStrip
  split <;> exact ⟨rfl, rfl⟩

theorem roleStrip_sublist (role : String) (del : List String) (h : V2Host) :
    List.Sublist (roleStrip role del h).IPS h.IPS := by
  unfold roleStrip
  split
  · exact removeIPList_sublist h.IPS del
  · exact List.Sublist.refl h.IPS

theorem roleStrip_clean (role : String) (del : List String) (h : V2Host) :
    role ∈ (roleStrip role del h).Roles →
      ∀ ip ∈ (roleStrip role del h).IPS, ip ∉ del := by
  unfold roleStrip
  by_cases hc : h.Roles.contains role
  · rw [if_pos hc]
    intro _ ip hip
    exact (mem_removeIPList ip h.IPS del hip).2
  · rw [if_neg hc]
    intro hrole
    exact absurd ((contains_eq_true_iff h.Roles role).mpr hrole) hc

theorem stripped_mem (role : String) (del : List String) (hosts : List V2Host)
    (h : V2Host)
    (hm : h ∈ (if del.isEmpty then hosts else hosts.map (roleStrip role del))) :
    ∃ h0 ∈ hosts, h.Roles = h0.Roles ∧ h.SSH = h0.SSH ∧
      List.Sublist h.IPS h0.IPS ∧
      (role ∈ h.Roles → ∀ ip ∈ h.IPS, ip ∉ del) := by
  by_cases hd : del.isEmpty
  · rw [if_pos hd] at hm
    refine ⟨h, hm, rfl, rfl, List.Sublist.refl _, ?_⟩
    intro _ ip _ hipdel
    rw [List.isEmpty_iff.mp hd] at hipdel
    exact absurd hipdel (List.not_mem_nil ip)
  · rw [if_neg hd] at hm
    rw [List.mem_map] at hm
    obtain ⟨h0, hh0, rfl⟩ := hm
    obtain ⟨hr, hs⟩ := roleStrip_roles_ssh role del h0
    exact ⟨h0, hh0, hr, hs, roleStrip_sublist role del h0,
      roleStrip_clean role del h0⟩

theorem map_self_eq {α : Type} (f : α → α) (hf : ∀ a, f a = a) :
    ∀ l : List α, l.map f = l
  | [] => rfl
  | a :: l => by rw [List.map_cons, hf a, map_self_eq f hf l]

theorem removeIPList_nil (l : List String) : removeIPList l [] = l := by
  unfold removeIPList
  have hp : ∀ ip ∈ l, (!(isInIPList ip [])) = (fun _ : String => true) ip :=
    fun ip _ => rfl
  rw [List.filter_congr hp, List.filter_true]

theorem roleStrip_nil (role : String) (h : V2Host) : roleStrip role [] h = h := by
  unfold roleStrip
  split
  · rw [removeIPList_nil]
  · rfl

/-- The two role-wise strips compose into the single-pass filter
`survivingIPS`, for arbitrary (possibly empty) deletion lists. -/
theorem roleStrip_comp (md wd : List String) (h : V2Host) :
    roleStrip NODE wd (roleStrip MASTER md h) =
      { h with IPS := survivingIPS md wd h } := by
  unfold roleStrip survivingIPS removeIPList
  cases hc1 : h.Roles.contains MASTER <;>
    cases hc2 : h.Roles.contains NODE <;>
    simp only [hc1, hc2, Bool.false_eq_true, if_false, if_true, ite_true,
      ite_false, List.filter_filter]
  · have hp : ∀ ip ∈ h.IPS,
        (fun _ : String => true) ip =
          (!(false && isInIPList ip md) && !(false && isInIPList ip wd)) :=
      fun ip _ => rfl
    rw [← List.filter_congr hp, List.filter_true]
  · have hp : ∀ ip ∈ h.IPS,
        (!(isInIPList ip wd)) =
          (!(false && isInIPList ip md) && !(true && isInIPList ip wd)) := by
      intro ip _
      cases isInIPList ip wd <;> rfl
    rw [List.filter_congr hp]
  · have hp : ∀ ip ∈ h.IPS,
        (!(isInIPList ip md)) =
          (!(true && isInIPList ip md) && !(false && isInIPList ip wd)) := by
      intro ip _
      cases isInIPList ip md <;> rfl
    rw [List.filter_congr hp]
  · have hp : ∀ ip ∈ h.IPS,
        (!(isInIPList ip wd) && !(isInIPList ip md)) =
          (!(true && isInIPList ip md) && !(true && isInIPList ip wd)) := by
      intro ip _
      cases isInIPList ip md <;> cases isInIPList ip wd <;> rfl
    rw [List.filter_congr hp]

/-- The host list produced by `ConstructClusterForScaleDown` is exactly:
every original entry with its IPs replaced by the surviving ones, the
entries left without any IP dropped. -/
theorem scaleDown_hosts_char (cluster : V2Cluster)
    (mastersToDelete workersToDelete : List String) :
    (ConstructClusterForScaleDown cluster mastersToDelete
        workersToDelete).2.Spec.Hosts =
      (cluster.Spec.Hosts.map (fun h =>
        { h with IPS := survivingIPS mastersToDelete workersToDelete h })).filter
        (fun h => !h.IPS.isEmpty) := by
  simp only [ConstructClusterForScaleDown]
  have h1 : (if mastersToDelete.isEmpty then cluster.Spec.Hosts
      else cluster.Spec.Hosts.map (roleStrip MASTER mastersToDelete)) =
      cluster.Spec.Hosts.map (roleStrip MASTER mastersToDelete) := by
    by_cases hmd : mastersToDelete.isEmpty
    · rw [if_pos hmd, List.isEmpty_iff.mp hmd]
      exact (map_self_eq (roleStrip MASTER []) (roleStrip_nil MASTER)
        cluster.Spec.Hosts).symm
    · rw [if_neg hmd]
  rw [h1]
  have h2 : (if workersToDelete.isEmpty then
        cluster.Spec.Hosts.map (roleStrip MASTER mastersToDelete)
      else (cluster.Spec.Hosts.map (roleStrip MASTER mastersToDelete)).map
        (roleStrip NODE workersToDelete)) =
      (cluster.Spec.Hosts.map (roleStrip MASTER mastersToDelete)).map
        (roleStrip NODE workersToDelete) := by
    by_cases hwd : workersToDelete.isEmpty
    · rw [if_pos hwd, List.isEmpty_iff.mp hwd]
      exact (map_self_eq (roleStrip NODE [])
        (roleStrip_nil NODE)
        (cluster.Spec.Hosts.map (roleStrip MASTER mastersToDelete))).symm
    · rw [if_neg hwd]
  rw [h2, List.map_map]
  congr 1
  exact List.map_congr_left (fun a _ => roleStrip_comp mastersToDelete
    workersToDelete a)

/-- C10: for every cluster and every pair of deletion lists,
`ConstructClusterForScaleDown` always returns nil, and the resulting
host list is exactly the original one with, per entry, precisely the
non-deleted IPs kept in their original relative order (an IP is dropped
iff the entry carries the master role and the IP is in
`mastersToDelete`, or the node role and the IP is in `workersToDelete`)
and with precisely the entries emptied by the removal pruned: no
master-role entry retains a deleted master IP, no node-role entry a
deleted worker IP, every remaining entry has a non-empty IP list, and
every original entry with at least one surviving IP survives with
exactly its surviving IPs, roles and SSH unchanged. -/
theorem constructClusterForScaleDown_invariants (cluster : V2Cluster)
    (mastersToDelete workersToDelete : List String) :
    (ConstructClusterForScaleDown cluster mastersToDelete workersToDelete).1 =
      none ∧
    (∀ h ∈ (ConstructClusterForScaleDown cluster mastersToDelete
        workersToDelete).2.Spec.Hosts,
      (MASTER ∈ h.Roles → ∀ ip ∈ h.IPS, ip ∉ mastersToDelete) ∧
      (NODE ∈ h.Roles → ∀ ip ∈ h.IPS, ip ∉ workersToDelete) ∧
      h.IPS ≠ [] ∧
      ∃ h0 ∈ cluster.Spec.Hosts, h.Roles = h0.Roles ∧ h.SSH = h0.SSH ∧
        List.Sublist h.IPS h0.IPS) ∧
    ((ConstructClusterForScaleDown cluster mastersToDelete
        workersToDelete).2.Spec.Hosts =
      (cluster.Spec.Hosts.map (fun h0 =>
        { h0 with IPS := survivingIPS mastersToDelete workersToDelete h0 })).filter
        (fun h => !h.IPS.isEmpty)) ∧
    (∀ h0 ∈ cluster.Spec.Hosts,
      survivingIPS mastersToDelete workersToDelete h0 ≠ [] →
      { h0 with IPS := survivingIPS mastersToDelete workersToDelete h0 } ∈
        (ConstructClusterForScaleDown cluster mastersToDelete
          workersToDelete).2.Spec.Hosts) := by
  refine ⟨rfl, ?_, scaleDown_hosts_char cluster mastersToDelete workersToDelete,
    ?_⟩
  · intro h hmem
    simp only [ConstructClusterForScaleDown] at hmem
    have hf := List.mem_filter.mp hmem
    have hne : h.IPS ≠ [] := by
      intro hnil
      have := hf.2
      rw [hnil] at this
      exact Bool.noConfusion this
    obtain ⟨h1, hh1, hr2, hs2, hsub2, hclean2⟩ :=
      stripped_mem NODE workersToDelete _ h hf.1
    obtain ⟨h0, hh0, hr1, hs1, hsub1, hclean1⟩ :=
      stripped_mem MASTER mastersToDelete cluster.Spec.Hosts h1 hh1
    refine ⟨?_, hclean2, hne, h0, hh0, hr2.trans hr1, hs2.trans hs1,
      hsub2.trans hsub1⟩
    intro hrole ip hip
    exact hclean1 (hr2 ▸ hrole) ip (hsub2.subset hip)
  · intro h0 hh0 hsne
    rw [scaleDown_hosts_char cluster mastersToDelete workersToDelete]
    refine List.mem_filter.mpr ⟨List.mem_map_of_mem _ hh0, ?_⟩
    show (!(survivingIPS mastersToDelete workersToDelete h0).isEmpty) = true
    cases hs : survivingIPS mastersToDelete workersToDelete h0 with
    | nil => exact absurd hs hsne
    | cons x xs => rfl

/-- C10 witness: concrete instantiation of
`constructClusterForScaleDown_invariants`. -/
theorem constructClusterForScaleDown_invariants_witness :
    (ConstructClusterForScaleDown scaleUpExampleCluster ["1.1.1.1"] []).1 =
      none ∧
    (∀ h ∈ (ConstructClusterForScaleDown scaleUpExampleCluster ["1.1.1.1"]
        []).2.Spec.Hosts,
      (MASTER ∈ h.Roles → ∀ ip ∈ h.IPS, ip ∉ (["1.1.1.1"] : List String)) ∧
      (NODE ∈ h.Roles → ∀ ip ∈ h.IPS, ip ∉ ([] : List String)) ∧
      h.IPS ≠ [] ∧
      ∃ h0 ∈ scaleUpExampleCluster.Spec.Hosts, h.Roles = h0.Roles ∧
        h.SSH = h0.SSH ∧ List.Sublist h.IPS h0.IPS) ∧
    ((ConstructClusterForScaleDown scaleUpExampleCluster ["1.1.1.1"]
        []).2.Spec.Hosts =
      (scaleUpExampleCluster.Spec.Hosts.map (fun h0 =>
        { h0 with IPS := survivingIPS ["1.1.1.1"] [] h0 })).filter
        (fun h => !h.IPS.isEmpty)) ∧
    (∀ h0 ∈ scaleUpExampleCluster.Spec.Hosts,
      survivingIPS ["1.1.1.1"] [] h0 ≠ [] →
      { h0 with IPS := survivingIPS ["1.1.1.1"] [] h0 } ∈
        (ConstructClusterForScaleDown scaleUpExampleCluster ["1.1.1.1"]
          []).2.Spec.Hosts) :=
  constructClusterForScaleDown_invariants scaleUpExampleCluster ["1.1.1.1"] []

/-! ### C8: Runtime.Upgrade panics instead of returning -/

/-- C8 counterexample: invoking the kubernetes runtime `Upgrade`
terminates by `panic("now not support upgrade")` — its observable
outcome is a panic, not a returned error value or nil, contrary to the
claim that it never terminates the process by panic. -/
theorem runtimeUpgrade_panics :
    RuntimeUpgrade = GoResult.panicked "now not support upgrade" := rfl

/-- C8 (amended): invoking the lifecycle controller's `Upgrade`
operation never produces a returned value (error or nil): the
unimplemented operation is signalled by an unconditional panic with
message `now not support upgrade`, an unrecoverable abort rather than a
detectable error value. -/
theorem runtimeUpgrade_never_returns (e : Option String) :
    RuntimeUpgrade ≠ GoResult.ok e := by
  intro h
  exact GoResult.noConfusion h

end Sealer
